import Mathlib

/-!
# Verification of the shift-planner core against its specification

This file is a shallow embedding, in Lean 4, of the core of the
`shift_planner` repository:

* `src/shift_generator.py` — calendar/hour decomposition, shift generation,
  conflict analysis;
* `src/optimizer.py` — the CP-SAT model (variables and constraints), the
  lexicographic driver's level-2b dispatch/freeze step, and the metrics
  extractor;
* `src/verifier.py` — the independent solution checks.

Modelling conventions:

* Python `date` values are represented by their civil day number (days since
  1970-01-01, via the standard days-from-civil bijection), `datetime` instants
  by rational hours since 1970-01-01 00:00 (so midnight of day `z` is `24*z`),
  and `time`-of-day values by rational hours in `[0, 24)`.
* Python floats (hour quantities) are modelled as exact rationals `ℚ`;
  Python `int(x)` on a non-negative float is `Int.floor` (truncation).
* CP-SAT boolean variables are `Bool`, integer variables are `ℕ`; a variable
  assignment is a `SolverState` record of valuation functions, and each
  `model.Add(...)` family from `_create_constraints` becomes a `Bool`-valued
  predicate on instance data and a `SolverState`.
* Python dictionaries built with unique keys are represented by lists of pairs
  in insertion order.
-/

set_option maxRecDepth 20000

namespace ShiftPlanner

/-! ## Calendar

Python's `datetime.date` / `calendar.monthrange` / `date.weekday`.
`weekday` follows Python: Monday = 0, Sunday = 6; 1970-01-01 (day 0)
was a Thursday (weekday 3). -/

def isLeap (y : Int) : Bool := (y % 4 == 0 && y % 100 != 0) || (y % 400 == 0)

/-- `calendar.monthrange(year, month)[1]`: number of days in the month. -/
def daysInMonth (y : Int) (m : Nat) : Nat :=
  if m == 2 then (if isLeap y then 29 else 28)
  else if m == 4 || m == 6 || m == 9 || m == 11 then 30 else 31

/-- Civil day number of `date(y, m, d)` (days since 1970-01-01). -/
def daysFromCivil (y : Int) (m d : Nat) : Int :=
  let yAdj : Int := if m ≤ 2 then y - 1 else y
  let era : Int := yAdj.fdiv 400
  let yoe : Int := yAdj - era * 400
  let mp : Nat := (m + 9) % 12
  let doy : Int := (153 * (mp : Int) + 2).fdiv 5 + (d : Int) - 1
  let doe : Int := yoe * 365 + yoe.fdiv 4 - yoe.fdiv 100 + doy
  era * 146097 + doe - 719468

/-- Python `date.weekday()`: Monday = 0 … Sunday = 6. -/
def weekday (z : Int) : Nat := ((z + 3).emod 7).toNat

/-- `date.weekday() == 6`. -/
def isSundayDate (z : Int) : Bool := weekday z == 6

/-- The calendar date containing the instant `t` (hours since epoch). -/
def dateOfInstant (t : ℚ) : Int := ⌊t / 24⌋

/-! ## Data model (`config_loader.py`)

Only the fields read by the embedded core functions are kept
(`empresa`/`cargo`/`cliente` and the monetary weights are copied verbatim
into reports and are not needed by any claim). -/

structure GlobalConfig where
  year : Int
  month : Nat
  day_start : ℚ
  night_start : ℚ
  shift_length_hours : Nat
  shift_start_time : ℚ
  hours_base_month : ℚ
  hours_per_week : ℚ
  min_fixed_per_post : Nat
  sunday_threshold : Nat
  max_posts_per_comodin : Nat
  min_rest_hours : ℚ
  rn_pct : ℚ
  rf_pct : ℚ
  he_pct : ℚ
deriving DecidableEq, Repr

structure Holiday where
  date : Int
  description : String
deriving DecidableEq, Repr

structure Post where
  post_id : String
  nombre : String
  required_coverage : Nat
  allow_day_shift : Bool
  allow_night_shift : Bool
deriving DecidableEq, Repr

structure Employee where
  emp_id : String
  tipo : String                      -- "FIJO" or "COMODIN"
  asignado_post_id : Option String   -- present iff FIJO
  salario_contrato : ℚ
  disponible_desde : Int
  disponible_hasta : Int
  max_posts_if_comodin : Nat
deriving DecidableEq, Repr

structure Config where
  global_config : GlobalConfig
  holidays : List Holiday
  posts : List Post
  employees : List Employee
deriving DecidableEq, Repr

/-! ## Hour decomposition (`shift_generator.py`)

`DayHours` and `Shift` mirror the dataclasses.  `hours_by_day` is the
date-keyed dictionary, kept as a list of `(day number, DayHours)` pairs in
chronological (insertion) order. -/

structure DayHours where
  date : Int
  total_hours : ℚ
  day_hours : ℚ
  night_hours : ℚ
  is_sunday : Bool
  is_holiday : Bool
deriving DecidableEq, Repr

structure Shift where
  post_id : String
  date : Int          -- start date of shift
  start_time : ℚ
  end_time : ℚ
  duration_hours : Nat
  is_night : Bool
  is_sunday : Bool    -- true if shift touches any Sunday
  is_holiday : Bool   -- true if shift touches any holiday
  shift_id : String
  hours_by_day : List (Int × DayHours)
deriving DecidableEq, Repr

/-- `_split_day_night_hours(period_start, period_end, work_date, day_start,
night_start)`.  Splits the hours of a within-one-date period into
(day hours, night hours).  Day window `[day_start, night_start)` on
`work_date`; night windows `[night_start, 24:00)` and `[00:00, day_start)`. -/
def splitDayNightHours (period_start period_end : ℚ) (work_date : Int)
    (day_start night_start : ℚ) : ℚ × ℚ :=
  let day_period_start : ℚ := 24 * work_date + day_start
  let day_period_end : ℚ := 24 * work_date + night_start
  let night_evening_start : ℚ := 24 * work_date + night_start
  let night_evening_end : ℚ := 24 * (work_date + 1)
  let night_morning_start : ℚ := 24 * work_date
  let night_morning_end : ℚ := 24 * work_date + day_start
  let day_overlap_start := max period_start day_period_start
  let day_overlap_end := min period_end day_period_end
  let day_hours : ℚ :=
    if day_overlap_start < day_overlap_end then day_overlap_end - day_overlap_start else 0
  let night_evening_overlap_start := max period_start night_evening_start
  let night_evening_overlap_end := min period_end night_evening_end
  let night_evening : ℚ :=
    if night_evening_overlap_start < night_evening_overlap_end then
      night_evening_overlap_end - night_evening_overlap_start else 0
  let night_morning_overlap_start := max period_start night_morning_start
  let night_morning_overlap_end := min period_end night_morning_end
  let night_morning : ℚ :=
    if night_morning_overlap_start < night_morning_overlap_end then
      night_morning_overlap_end - night_morning_overlap_start else 0
  (day_hours, night_evening + night_morning)

/-- One iteration chunk of the `while current_time < shift_end` loop of
`calculate_hours_by_day`, with explicit fuel (the wrapper supplies enough
fuel for the whole interval, one unit per touched calendar day). -/
def calcHoursLoop (shift_end day_start night_start : ℚ) (holiday_dates : List Int) :
    Nat → ℚ → List (Int × DayHours)
  | 0, _ => []
  | fuel + 1, current_time =>
    if current_time < shift_end then
      let current_date : Int := dateOfInstant current_time
      let day_end : ℚ := min shift_end (24 * (current_date + 1))
      let total_hours_this_day : ℚ := day_end - current_time
      let entry : List (Int × DayHours) :=
        if 0 < total_hours_this_day then
          let dn := splitDayNightHours current_time day_end current_date day_start night_start
          [(current_date,
            { date := current_date
              total_hours := total_hours_this_day
              day_hours := dn.1
              night_hours := dn.2
              is_sunday := isSundayDate current_date
              is_holiday := holiday_dates.contains current_date })]
        else []
      entry ++ calcHoursLoop shift_end day_start night_start holiday_dates fuel day_end
    else []

/-- `calculate_hours_by_day(shift_start, shift_end, day_start, night_start,
holiday_dates)`.  The fuel bound `⌊end/24⌋ - ⌊start/24⌋ + 1` covers every
calendar day the interval can touch. -/
def calculate_hours_by_day (shift_start shift_end : ℚ) (day_start night_start : ℚ)
    (holiday_dates : List Int) : List (Int × DayHours) :=
  calcHoursLoop shift_end day_start night_start holiday_dates
    ((⌊shift_end / 24⌋ - ⌊shift_start / 24⌋).toNat + 1) shift_start

/-! ## Shift creation and generation (`shift_generator.py`) -/

/-- Zero-padded two-digit rendering (for `strftime('%Y%m%d')`). -/
def pad2 (n : Nat) : String := if n < 10 then "0" ++ toString n else toString n

/-- `shift_date.strftime('%Y%m%d')` for a civil `(year, month, day)`. -/
def yyyymmdd (year : Int) (month day : Nat) : String :=
  toString year ++ pad2 month ++ pad2 day

/-- Time-of-day of `datetime.combine(today, base) + timedelta(hours=h)`
(wraps modulo 24, as `.time()` does). -/
def addHoursTime (t : ℚ) (h : ℚ) : ℚ := t + h - 24 * ⌊(t + h) / 24⌋

/-- `create_shift(post_id, shift_date, start_time, duration_hours, is_sunday,
is_holiday, shift_type, config)`.  The source receives the start date as a
`date` value; here it arrives as its civil components (used for the
`strftime` identifier) and its day number is recomputed.  The `is_sunday` /
`is_holiday` arguments are received but, exactly as in the source, the stored
flags are recomputed from the touched dates. -/
def create_shift (post_id : String) (year : Int) (month day : Nat) (start_time : ℚ)
    (duration_hours : Nat) (_is_sunday _is_holiday : Bool) (shift_type : String)
    (cfg : Config) : Shift :=
  let shift_date : Int := daysFromCivil year month day
  let start_datetime : ℚ := 24 * shift_date + start_time
  let end_datetime : ℚ := start_datetime + duration_hours
  let end_time : ℚ := end_datetime - 24 * ⌊end_datetime / 24⌋
  let is_night := shift_type == "NIGHT"
  let holiday_dates := cfg.holidays.map (·.date)
  let hours_by_day := calculate_hours_by_day start_datetime end_datetime
    cfg.global_config.day_start cfg.global_config.night_start holiday_dates
  let shift_touches_sunday := hours_by_day.any (fun p => p.2.is_sunday)
  let shift_touches_holiday := hours_by_day.any (fun p => p.2.is_holiday)
  let shift_id := post_id ++ "_" ++ yyyymmdd year month day ++ "_" ++ shift_type
  { post_id := post_id
    date := shift_date
    start_time := start_time
    end_time := end_time
    duration_hours := duration_hours
    is_night := is_night
    is_sunday := shift_touches_sunday
    is_holiday := shift_touches_holiday
    shift_id := shift_id
    hours_by_day := hours_by_day }

/-- `generate_shifts(config)`: the full shift set for the month. -/
def generate_shifts (cfg : Config) : List Shift :=
  let year := cfg.global_config.year
  let month := cfg.global_config.month
  let num_days := daysInMonth year month
  let shift_duration := cfg.global_config.shift_length_hours
  let base_start_time := cfg.global_config.shift_start_time
  let shift_start_times : List (ℚ × String) :=
    if shift_duration == 12 then
      [(base_start_time, "DAY"), (addHoursTime base_start_time 12, "NIGHT")]
    else if shift_duration == 8 then
      [(base_start_time, "DAY"), (addHoursTime base_start_time 8, "DAY"),
       (addHoursTime base_start_time 16, "NIGHT")]
    else
      (List.range (24 / shift_duration)).map (fun i =>
        let start_time := addHoursTime base_start_time (i * shift_duration)
        (start_time,
         if decide (cfg.global_config.night_start ≤ start_time)
            || decide (start_time < cfg.global_config.day_start) then "NIGHT" else "DAY"))
  (List.range num_days).flatMap (fun d0 =>
    let day := d0 + 1
    let current_date := daysFromCivil year month day
    let is_sunday := isSundayDate current_date
    let is_holiday := (cfg.holidays.map (·.date)).contains current_date
    cfg.posts.flatMap (fun post =>
      shift_start_times.filterMap (fun st =>
        if (st.2 == "DAY" && post.allow_day_shift)
            || (st.2 == "NIGHT" && post.allow_night_shift) then
          some (create_shift post.post_id year month day st.1 shift_duration
            is_sunday is_holiday st.2 cfg)
        else none)))

/-! ## Conflict analysis (`shift_generator.py`) -/

/-- Boolean equality test on `ℚ`, in antisymmetry form (`a ≤ b ∧ b ≤ a`);
used for the instant-equality tests of `shifts_conflict` because it
evaluates well, and proved equivalent to `a = b` below. -/
def ratEqB (a b : ℚ) : Bool := decide (a ≤ b) && decide (b ≤ a)

/-- Start instant of a shift (`datetime.combine(shift.date, shift.start_time)`). -/
def shiftStartDT (s : Shift) : ℚ := 24 * s.date + s.start_time

/-- End instant of a shift (`start + timedelta(hours=duration_hours)`). -/
def shiftEndDT (s : Shift) : ℚ := shiftStartDT s + s.duration_hours

/-- `shifts_conflict(shift1, shift2, min_rest_hours)`.  The rest parameter is
received and ignored, exactly as in the source. -/
def shifts_conflict (shift1 shift2 : Shift) (_min_rest_hours : ℚ := 0) : Bool :=
  let start1 := shiftStartDT shift1
  let end1 := start1 + shift1.duration_hours
  let start2 := shiftStartDT shift2
  let end2 := start2 + shift2.duration_hours
  if !(decide (end1 ≤ start2) || decide (end2 ≤ start1)) then true
  else if ratEqB end1 start2 || ratEqB end2 start1 then true
  else false

/-- `get_shifts_with_conflicts(shifts, min_rest_hours)`: the nested
`for i / for j in shifts[i+1:]` enumeration. -/
def get_shifts_with_conflicts (shifts : List Shift) (min_rest_hours : ℚ := 0) :
    List (String × String) :=
  match shifts with
  | [] => []
  | shift1 :: rest =>
    (rest.filterMap (fun shift2 =>
      if shifts_conflict shift1 shift2 min_rest_hours then
        some (shift1.shift_id, shift2.shift_id)
      else none))
    ++ get_shifts_with_conflicts rest min_rest_hours

/-- All ordered pairs `(l[i], l[j])` with `i < j`, in the order the double
loop of `get_shifts_with_conflicts` visits them (specification device). -/
def allOrderedPairs {α : Type} : List α → List (α × α)
  | [] => []
  | a :: rest => rest.map (fun b => (a, b)) ++ allOrderedPairs rest

/-! ## The CP-SAT model (`optimizer.py`)

A CP-SAT variable assignment is a `SolverState`; boolean variables are
`Bool`, integer variables `ℕ` (they are created with lower bound 0).
Every `model.Add(...)` of `ShiftOptimizer._create_constraints`, and every
`NewIntVar` upper bound, becomes a `Bool`-valued check below; a state
satisfies the model iff `constraintsOK` holds.  Variables are keyed by
`emp_id` / `shift_id` / `post_id` / Sunday day number, as in the source. -/

structure SolverState where
  x : String → String → Bool              -- x[emp_id, shift_id]
  active : String → Bool                  -- active[emp_id]
  z : String → String → Bool              -- z[emp_id, post_id] (COMODIN only)
  sunday_worked : String → Int → Bool     -- sunday_worked[emp_id, sunday]
  excess_sundays : String → Bool          -- excess_sundays[emp_id]
  hours_assigned : String → Nat           -- in hours
  hours_night : String → Nat              -- centihours
  hours_holiday : String → Nat            -- centihours
  hours_sunday : String → Nat             -- centihours
  he_hours : String → Nat                 -- centihours
  has_he : String → Bool

/-- `ShiftOptimizer._is_valid_assignment`: an `x` variable exists for
`(emp, shift)` iff this holds. -/
def validAssignment (emp : Employee) (shift : Shift) : Bool :=
  if emp.tipo == "FIJO" then
    match emp.asignado_post_id with
    | some p => shift.post_id == p
    | none => false
  else true

/-- `ShiftOptimizer._get_sundays`: all Sunday day numbers of the month. -/
def getSundays (cfg : Config) : List Int :=
  (List.range (daysInMonth cfg.global_config.year cfg.global_config.month)).filterMap
    (fun d0 =>
      let z := daysFromCivil cfg.global_config.year cfg.global_config.month (d0 + 1)
      if weekday z == 6 then some z else none)

/-- `employee_data[emp]['hours_to_work'] = (hours_per_week / 7) * days_in_month`. -/
def hoursToWork (cfg : Config) : ℚ :=
  (cfg.global_config.hours_per_week / 7) * (daysInMonth cfg.global_config.year cfg.global_config.month : ℚ)

/-- The shifts an employee could in principle take (`employee_shifts` in
`_create_variables`): the assigned post's shifts for a FIJO, all shifts for
a COMODIN. -/
def employeeShifts (emp : Employee) (shifts : List Shift) : List Shift :=
  if emp.tipo == "FIJO" then
    shifts.filter (fun s =>
      match emp.asignado_post_id with
      | some p => s.post_id == p
      | none => false)
  else shifts

/-- `max_hours_for_employee = len(employee_shifts) * shift_length_hours`. -/
def maxHoursFor (cfg : Config) (shifts : List Shift) (emp : Employee) : Nat :=
  (employeeShifts emp shifts).length * cfg.global_config.shift_length_hours

/-- `max_he_centihours = max(0, int((max_hours - hours_to_work) * 100))`. -/
def maxHeCentihoursFor (cfg : Config) (shifts : List Shift) (emp : Employee) : Nat :=
  (⌊((maxHoursFor cfg shifts emp : ℚ) - hoursToWork cfg) * 100⌋).toNat

/-- `shift_night_hours`: sum of `night_hours` over the shift's `hours_by_day`. -/
def shiftNightHours (s : Shift) : ℚ := (s.hours_by_day.map (fun p => p.2.night_hours)).sum

/-- `shift_holiday_hours`: sum of `total_hours` over holiday-flagged touched dates. -/
def shiftHolidayHours (s : Shift) : ℚ :=
  ((s.hours_by_day.filter (fun p => p.2.is_holiday)).map (fun p => p.2.total_hours)).sum

/-- `shift_sunday_hours`: sum of `total_hours` over Sunday-flagged touched dates. -/
def shiftSundayHours (s : Shift) : ℚ :=
  ((s.hours_by_day.filter (fun p => p.2.is_sunday)).map (fun p => p.2.total_hours)).sum

/-- `int(shift_night_hours * 100)`: the shift's night-hour coefficient in
centihours (the values are non-negative, so `int` truncation is `⌊·⌋`). -/
def shiftNightCenti (s : Shift) : Nat := (⌊shiftNightHours s * 100⌋).toNat

/-- `int(shift_holiday_hours * 100)`. -/
def shiftHolidayCenti (s : Shift) : Nat := (⌊shiftHolidayHours s * 100⌋).toNat

/-- `int(shift_sunday_hours * 100)`. -/
def shiftSundayCenti (s : Shift) : Nat := (⌊shiftSundayHours s * 100⌋).toNat

/-- Constraint family 1 (coverage): for every shift with at least one
eligible employee, `Σ_e x[e, s] == required_coverage` of the shift's post. -/
def coverageOK (cfg : Config) (shifts : List Shift) (S : SolverState) : Bool :=
  shifts.all (fun shift =>
    let assigned_employees := cfg.employees.filter (fun e => validAssignment e shift)
    assigned_employees.isEmpty ||
      match cfg.posts.find? (fun p => p.post_id == shift.post_id) with
      | some post =>
        (assigned_employees.map (fun e =>
          if S.x e.emp_id shift.shift_id then 1 else 0)).sum == post.required_coverage
      | none => true)

/-- Constraint family 2 (activation): `x[e, s] ≤ active[e]`. -/
def activationOK (cfg : Config) (shifts : List Shift) (S : SolverState) : Bool :=
  cfg.employees.all (fun e =>
    shifts.all (fun shift =>
      !(validAssignment e shift && S.x e.emp_id shift.shift_id) || S.active e.emp_id))

/-- Constraint family 3 (conflicts): for every conflicting pair and every
employee eligible for both shifts, `x[e, s1] + x[e, s2] ≤ 1`. -/
def conflictOK (cfg : Config) (shifts : List Shift) (S : SolverState) : Bool :=
  (get_shifts_with_conflicts shifts 0).all (fun p =>
    cfg.employees.all (fun e =>
      match shifts.find? (fun s => s.shift_id == p.1),
            shifts.find? (fun s => s.shift_id == p.2) with
      | some shift1, some shift2 =>
        !(validAssignment e shift1 && validAssignment e shift2)
          || !(S.x e.emp_id p.1 && S.x e.emp_id p.2)
      | _, _ => true))

/-- The cap the model actually applies to a COMODIN (`optimizer.py` line 390):
the per-employee `max_posts_if_comodin` when positive, else the global
`max_posts_per_comodin`. -/
def comodinMaxPosts (cfg : Config) (emp : Employee) : Nat :=
  if 0 < emp.max_posts_if_comodin then emp.max_posts_if_comodin
  else cfg.global_config.max_posts_per_comodin

/-- Constraint family 5 (COMODIN post limits): `Σ_p z[e, p] ≤ cap`, and the
`z`/`x` links `z[e, p] ≥ x[e, s]` (each shift of the post) and
`z[e, p] * len(post_assignments) ≥ Σ x[e, s]`. -/
def comodinOK (cfg : Config) (shifts : List Shift) (S : SolverState) : Bool :=
  cfg.employees.all (fun e =>
    if e.tipo == "COMODIN" then
      ((cfg.posts.map (fun p => if S.z e.emp_id p.post_id then 1 else 0)).sum
        ≤ comodinMaxPosts cfg e)
      && cfg.posts.all (fun p =>
        let post_assignments := (shifts.filter (fun s => s.post_id == p.post_id)).filter
          (fun s => validAssignment e s)
        post_assignments.isEmpty ||
          ((post_assignments.all (fun s =>
              !(S.x e.emp_id s.shift_id) || S.z e.emp_id p.post_id))
           && ((post_assignments.map (fun s =>
                if S.x e.emp_id s.shift_id then 1 else 0)).sum
              ≤ (if S.z e.emp_id p.post_id then post_assignments.length else 0))))
    else true)

/-- Constraint family 6 (Sunday tracking): for each employee and each Sunday
`d` of the month, with `sunday_shifts = [s for s in shifts if s.date == d]`,
the links `sunday_worked[e, d] ≥ x[e, s]` and
`sunday_worked[e, d] * len ≥ Σ x[e, s]` — added only when the employee has
an `x` variable on some shift starting on `d`. -/
def sundayLinkOK (cfg : Config) (shifts : List Shift) (S : SolverState) : Bool :=
  cfg.employees.all (fun e =>
    (getSundays cfg).all (fun d =>
      let sunday_shifts := shifts.filter (fun s => s.date == d)
      let sunday_assignments := sunday_shifts.filter (fun s => validAssignment e s)
      sunday_assignments.isEmpty ||
        ((sunday_assignments.all (fun s =>
            !(S.x e.emp_id s.shift_id) || S.sunday_worked e.emp_id d))
         && ((sunday_assignments.map (fun s =>
              if S.x e.emp_id s.shift_id then 1 else 0)).sum
            ≤ (if S.sunday_worked e.emp_id d then sunday_assignments.length else 0)))))

/-- Constraint family 7 (excess Sundays): with `T = sunday_threshold` and the
month's Sunday list, `Σ_d sunday_worked ≤ T + len(sundays) * excess` and
`Σ_d sunday_worked ≥ (T + 1) * excess`. -/
def excessSundaysOK (cfg : Config) (S : SolverState) : Bool :=
  let sundays := getSundays cfg
  let threshold := cfg.global_config.sunday_threshold
  cfg.employees.all (fun e =>
    sundays.isEmpty ||
      (let sundaysWorkedSum :=
        (sundays.map (fun d => if S.sunday_worked e.emp_id d then 1 else 0)).sum
       let ex := if S.excess_sundays e.emp_id then 1 else 0
       (sundaysWorkedSum ≤ threshold + sundays.length * ex)
       && ((threshold + 1) * ex ≤ sundaysWorkedSum)))

/-- Sum of a list of 0/1 Sunday-indicator values (`sum(sundays_worked)`). -/
def sundayWorkedCount (w : List Bool) : Nat :=
  (w.map (fun b => if b then 1 else 0)).sum

/-- The two excess-Sunday constraints of `_create_constraints` step 7 in
isolation, for an employee whose per-Sunday indicator values are `w`
(one entry per Sunday of the month, so `K = w.length`) and whose
`excess_sundays` value is `ex ∈ {0, 1}`. -/
def excessSundaysConstraintOK (w : List Bool) (threshold ex : Nat) : Prop :=
  sundayWorkedCount w ≤ threshold + w.length * ex
  ∧ (threshold + 1) * ex ≤ sundayWorkedCount w

/-- Constraint family 8 (hour aggregators and overtime): per employee,
`hours_assigned = Σ x·duration`, the night/holiday/Sunday centihour
aggregators, `he_hours ≥ 100·hours_assigned − int(hours_to_work·100)`
(`he_hours ≥ 0` is the variable's domain), and the `has_he` big-M links. -/
def hoursOK (cfg : Config) (shifts : List Shift) (S : SolverState) : Bool :=
  cfg.employees.all (fun e =>
    let myShifts := shifts.filter (fun s => validAssignment e s)
    let totalHours := (myShifts.map (fun s =>
      if S.x e.emp_id s.shift_id then s.duration_hours else 0)).sum
    let nightCenti := (myShifts.map (fun s =>
      if S.x e.emp_id s.shift_id then shiftNightCenti s else 0)).sum
    let holidayCenti := (myShifts.map (fun s =>
      if S.x e.emp_id s.shift_id then shiftHolidayCenti s else 0)).sum
    let sundayCenti := (myShifts.map (fun s =>
      if S.x e.emp_id s.shift_id then shiftSundayCenti s else 0)).sum
    let hoursToWorkCenti : Int := ⌊hoursToWork cfg * 100⌋
    let maxHe := maxHeCentihoursFor cfg shifts e
    let bigM := if 0 < maxHe then maxHe else 1000
    (S.hours_assigned e.emp_id == totalHours)
    && (S.hours_night e.emp_id == nightCenti)
    && (S.hours_holiday e.emp_id == holidayCenti)
    && (S.hours_sunday e.emp_id == sundayCenti)
    && decide (100 * (S.hours_assigned e.emp_id : Int) - hoursToWorkCenti
        ≤ (S.he_hours e.emp_id : Int))
    && (S.he_hours e.emp_id ≤ (if S.has_he e.emp_id then bigM else 0))
    && ((if S.has_he e.emp_id then 1 else 0) ≤ S.he_hours e.emp_id))

/-- `NewIntVar` upper bounds of the hour variables (`_create_variables`). -/
def domainOK (cfg : Config) (shifts : List Shift) (S : SolverState) : Bool :=
  cfg.employees.all (fun e =>
    let maxHours := maxHoursFor cfg shifts e
    (S.hours_assigned e.emp_id ≤ maxHours)
    && (S.hours_night e.emp_id ≤ maxHours * 100)
    && (S.hours_holiday e.emp_id ≤ maxHours * 100)
    && (S.hours_sunday e.emp_id ≤ maxHours * 100)
    && (S.he_hours e.emp_id ≤ maxHeCentihoursFor cfg shifts e))

/-- A `SolverState` satisfies the whole CP-SAT model built by
`ShiftOptimizer._create_variables` / `_create_constraints`. -/
def constraintsOK (cfg : Config) (shifts : List Shift) (S : SolverState) : Bool :=
  coverageOK cfg shifts S && activationOK cfg shifts S && conflictOK cfg shifts S
  && comodinOK cfg shifts S && sundayLinkOK cfg shifts S && excessSundaysOK cfg S
  && hoursOK cfg shifts S && domainOK cfg shifts S

/-! ## Metrics extraction (`ShiftOptimizer._extract_solution` /
`_calculate_employee_metrics`)

Only the fields the verifier's accuracy check reads are kept (the monetary
`val_*` fields are derived from these and are not compared by any check). -/

structure EmployeeMetrics where
  hours_assigned : Nat
  hours_night : ℚ
  hours_holiday : ℚ
  hours_sunday : ℚ
  num_sundays : Nat
  he_hours : ℚ
  rf_hours_applied : ℚ
deriving DecidableEq, Repr

/-- `_calculate_employee_metrics` for one employee: solver values read back,
centihours divided by 100; `num_sundays` recounted from the assigned shifts'
`hours_by_day` (distinct Sunday dates with positive hours); the RF rule
applied against `sunday_threshold`. -/
def calcEmployeeMetrics (cfg : Config) (shifts : List Shift) (S : SolverState)
    (e : Employee) : EmployeeMetrics :=
  if S.active e.emp_id then
    let hours_night : ℚ := (S.hours_night e.emp_id : ℚ) / 100
    let hours_holiday : ℚ := (S.hours_holiday e.emp_id : ℚ) / 100
    let hours_sunday : ℚ := (S.hours_sunday e.emp_id : ℚ) / 100
    let he_hours : ℚ := (S.he_hours e.emp_id : ℚ) / 100
    let sunday_dates_worked :=
      ((shifts.filter (fun s => validAssignment e s && S.x e.emp_id s.shift_id)).flatMap
        (fun s => (s.hours_by_day.filter
          (fun p => p.2.is_sunday && decide (0 < p.2.total_hours))).map (fun p => p.1))).dedup
    let num_sundays := sunday_dates_worked.length
    let rf_hours_applied :=
      if cfg.global_config.sunday_threshold < num_sundays then hours_holiday + hours_sunday
      else hours_holiday
    { hours_assigned := S.hours_assigned e.emp_id
      hours_night := hours_night
      hours_holiday := hours_holiday
      hours_sunday := hours_sunday
      num_sundays := num_sundays
      he_hours := he_hours
      rf_hours_applied := rf_hours_applied }
  else
    { hours_assigned := 0, hours_night := 0, hours_holiday := 0, hours_sunday := 0
      num_sundays := 0, he_hours := 0, rf_hours_applied := 0 }

/-- The parts of a `Solution` the verifier reads.  `assignments` is the
`shift_id -> emp_id` dictionary in insertion order (the employee-major /
shift-minor scan of `_extract_solution`; under the coverage constraint each
shift is written at most once, so the list is the dictionary). -/
structure SolutionRec where
  assignments : List (String × String)
  active_employees : List String
  employee_metrics : List (String × EmployeeMetrics)
deriving DecidableEq, Repr

/-- `ShiftOptimizer._extract_solution` (data part). -/
def extractSolution (cfg : Config) (shifts : List Shift) (S : SolverState) : SolutionRec :=
  { assignments := cfg.employees.flatMap (fun e =>
      shifts.filterMap (fun s =>
        if validAssignment e s && S.x e.emp_id s.shift_id then
          some (s.shift_id, e.emp_id)
        else none))
    active_employees := (cfg.employees.filter (fun e => S.active e.emp_id)).map (·.emp_id)
    employee_metrics := cfg.employees.map (fun e =>
      (e.emp_id, calcEmployeeMetrics cfg shifts S e)) }

/-! ## Verifier (`verifier.py`)

Each `_verify_*` function becomes a `Bool` check that holds iff the function
adds no error (warnings do not affect `is_valid`). -/

/-- The shifts the verifier attributes to an employee:
`[shifts_by_id[sid] for sid, emp in solution.assignments.items() if emp == e]`. -/
def assignedShiftsOf (sol : SolutionRec) (shifts : List Shift) (empId : String) :
    List Shift :=
  (sol.assignments.filter (fun p => p.2 == empId)).filterMap
    (fun p => shifts.find? (fun s => s.shift_id == p.1))

/-- Verifier recomputation `calc_hours_assigned`. -/
def verifierCalcAssigned (sol : SolutionRec) (shifts : List Shift) (empId : String) : Nat :=
  ((assignedShiftsOf sol shifts empId).map (·.duration_hours)).sum

/-- Verifier recomputation `calc_hours_night`: full durations of
night-flagged assigned shifts. -/
def verifierCalcNight (sol : SolutionRec) (shifts : List Shift) (empId : String) : Nat :=
  (((assignedShiftsOf sol shifts empId).filter (·.is_night)).map (·.duration_hours)).sum

/-- Verifier recomputation `calc_hours_holiday` (computed by the source but
never compared against the metrics). -/
def verifierCalcHoliday (sol : SolutionRec) (shifts : List Shift) (empId : String) : Nat :=
  (((assignedShiftsOf sol shifts empId).filter (·.is_holiday)).map (·.duration_hours)).sum

/-- Verifier recomputation `calc_hours_sunday` (computed by the source but
never compared against the metrics). -/
def verifierCalcSunday (sol : SolutionRec) (shifts : List Shift) (empId : String) : Nat :=
  (((assignedShiftsOf sol shifts empId).filter (·.is_sunday)).map (·.duration_hours)).sum

/-- Verifier recomputation `calc_num_sundays`: distinct *start* dates of
assigned shifts that fall on a Sunday. -/
def verifierCalcNumSundays (sol : SolutionRec) (shifts : List Shift) (empId : String) : Nat :=
  (((assignedShiftsOf sol shifts empId).filter (fun s => weekday s.date == 6)).map
    (·.date)).dedup.length

/-- `_verify_calculation_accuracy` adds no error: for every active employee,
`|calc_hours_assigned − m.hours_assigned| ≤ 0.01`,
`|calc_hours_night − m.hours_night| ≤ 0.01`, and
`calc_num_sundays == m.num_sundays` (the overtime comparison only produces a
warning and is omitted from validity). -/
def calculationAccuracyOK (sol : SolutionRec) (shifts : List Shift) : Bool :=
  sol.employee_metrics.all (fun em =>
    if sol.active_employees.contains em.1 then
      decide (|((verifierCalcAssigned sol shifts em.1 : ℚ)) - (em.2.hours_assigned : ℚ)|
        ≤ 1 / 100)
      && decide (|((verifierCalcNight sol shifts em.1 : ℚ)) - em.2.hours_night| ≤ 1 / 100)
      && (verifierCalcNumSundays sol shifts em.1 == em.2.num_sundays)
    else true)

/-- `_verify_employee_constraints` adds no error: every assignment goes to a
known employee, FIJO employees stay on their post, and the shift's start date
lies inside the employee's availability window. -/
def employeeConstraintsOK (sol : SolutionRec) (shifts : List Shift)
    (employees : List Employee) : Bool :=
  sol.assignments.all (fun p =>
    match employees.find? (fun e => e.emp_id == p.2),
          shifts.find? (fun s => s.shift_id == p.1) with
    | some e, some shift =>
      (if e.tipo == "FIJO" then
        match e.asignado_post_id with
        | some q => shift.post_id == q
        | none => false
      else true)
      && decide (e.disponible_desde ≤ shift.date)
      && decide (shift.date ≤ e.disponible_hasta)
    | none, _ => false
    | _, none => true)

/-- `_verify_comodin_limits` adds no error: every active COMODIN serves at
most `min(max_posts_if_comodin, max_posts_per_comodin)` distinct posts. -/
def verifierComodinOK (cfg : Config) (shifts : List Shift) (sol : SolutionRec) : Bool :=
  sol.active_employees.all (fun empId =>
    match cfg.employees.find? (fun e => e.emp_id == empId) with
    | some e =>
      if e.tipo == "COMODIN" then
        let posts_used := ((sol.assignments.filter (fun p => p.2 == empId)).filterMap
          (fun p => (shifts.find? (fun s => s.shift_id == p.1)).map (·.post_id))).dedup
        posts_used.length ≤ min e.max_posts_if_comodin cfg.global_config.max_posts_per_comodin
      else true
    | none => true)

/-- The distinct posts on which an employee takes some shift in state `S`.
This is what verifier and spec mean by "posts used by a FLOATER". -/
def postsUsedBy (shifts : List Shift) (S : SolverState) (e : Employee) : List String :=
  ((shifts.filter (fun s => validAssignment e s && S.x e.emp_id s.shift_id)).map
    (·.post_id)).dedup

/-! ## Model-build check (`_create_constraints` step 4) and model construction -/

/-- `FIJO` employees of a post (as counted at `optimizer.py` lines 377-381). -/
def fixedEmployeesForPost (employees : List Employee) (postId : String) : List Employee :=
  employees.filter (fun e => e.tipo == "FIJO" && e.asignado_post_id == some postId)

/-- The `ValueError` message raised at `optimizer.py` line 384. -/
def minFixedErrorMsg (postId : String) (count required : Nat) : String :=
  "Post " ++ postId ++ " has only " ++ toString count ++
  " fixed employees, minimum required is " ++ toString required

/-- The minimum-fixed-staffing check run while the model is being built:
posts are scanned in order, and the first under-staffed post raises. -/
def checkMinFixedPerPost (posts : List Post) (employees : List Employee)
    (minFixed : Nat) : Except String Unit :=
  match posts with
  | [] => .ok ()
  | p :: rest =>
    let c := (fixedEmployeesForPost employees p.post_id).length
    if c < minFixed then .error (minFixedErrorMsg p.post_id c minFixed)
    else checkMinFixedPerPost rest employees minFixed

/-- A successfully built model (`ShiftOptimizer.__init__` returned).  Solving
is only defined on this type, so a build error means no `Solution` value of
any kind can be produced. -/
structure BuiltModel where
  cfg : Config
  shifts : List Shift
deriving DecidableEq, Repr

/-- `ShiftOptimizer(config, shifts)`: constraint construction runs inside
`__init__` (before any `Solve` call); the staffing check is the only failing
step modelled here, all other constraint families always build. -/
def buildShiftOptimizer (cfg : Config) (shifts : List Shift) : Except String BuiltModel :=
  match checkMinFixedPerPost cfg.posts cfg.employees cfg.global_config.min_fixed_per_post with
  | .error msg => .error msg
  | .ok _ => .ok { cfg := cfg, shifts := shifts }

/-- `true` iff the model construction succeeded. -/
def buildSucceeds (cfg : Config) (shifts : List Shift) : Bool :=
  match buildShiftOptimizer cfg shifts with
  | .ok _ => true
  | .error _ => false

/-! ## Lexicographic level 2b: dispatch and freeze (`solve_lexicographic`)

The L2b branch of `solve_lexicographic` binds one Python local variable per
strategy and minimises it; the freeze step afterwards re-reads one of those
locals by name.  `L2bLocals` records exactly which locals the executed branch
bound (Python function-level scoping); reading an unbound local raises
`UnboundLocalError`. -/

inductive L2bObjective where
  | smartWeightedExcess   -- smart: Σ weight(e)·excess_sundays[e]
  | totalExcessSundays    -- balanced / default: Σ excess_sundays[e]
  | totalSundayCost       -- cost_focused: Σ hours_sunday[e]·⌊wage·rf⌋
  | maxHours              -- load_balancing: fresh max_hours variable
  | maxSurcharge          -- surcharge_equity: fresh max_surcharge variable
deriving DecidableEq, Repr

structure L2bLocals where
  smart_excess_objective : Option L2bObjective := none
  total_excess_sundays : Option L2bObjective := none
  total_sunday_cost : Option L2bObjective := none
  max_hours : Option L2bObjective := none
  max_surcharge : Option L2bObjective := none
deriving DecidableEq, Repr

/-- Which locals the L2b dispatch (lines 560-669) binds, per strategy, and
which objective it passes to `Minimize`. -/
def l2bBranchLocals (strategy : String) : L2bLocals :=
  if strategy == "smart" then { smart_excess_objective := some .smartWeightedExcess }
  else if strategy == "balanced" then { total_excess_sundays := some .totalExcessSundays }
  else if strategy == "cost_focused" then { total_sunday_cost := some .totalSundayCost }
  else if strategy == "load_balancing" then { max_hours := some .maxHours }
  else if strategy == "surcharge_equity" then { max_surcharge := some .maxSurcharge }
  else { total_excess_sundays := some .totalExcessSundays }

/-- The objective the L2b branch just minimised. -/
def l2bMinimised (strategy : String) : L2bObjective :=
  if strategy == "smart" then .smartWeightedExcess
  else if strategy == "balanced" then .totalExcessSundays
  else if strategy == "cost_focused" then .totalSundayCost
  else if strategy == "load_balancing" then .maxHours
  else if strategy == "surcharge_equity" then .maxSurcharge
  else .totalExcessSundays

/-- The freeze step after the L2b solve (lines 676-684): read the local named
in the matching arm and add `objective ≤ optimum`.  The `else` arm reads
`total_excess_sundays`, which `load_balancing` and `surcharge_equity` never
bound. -/
def l2bFreezeRead (strategy : String) (env : L2bLocals) : Except String L2bObjective :=
  if strategy == "smart" then
    match env.smart_excess_objective with
    | some o => .ok o
    | none => .error "UnboundLocalError: smart_excess_objective"
  else if strategy == "cost_focused" then
    match env.total_sunday_cost with
    | some o => .ok o
    | none => .error "UnboundLocalError: total_sunday_cost"
  else
    match env.total_excess_sundays with
    | some o => .ok o
    | none => .error "UnboundLocalError: total_excess_sundays"

/-- Outcome of the complete L2b freeze step for a strategy string. -/
def l2bFreezeResult (strategy : String) : Except String L2bObjective :=
  l2bFreezeRead strategy (l2bBranchLocals strategy)

/-! ## Concrete scenario 1 (`tests/test_basic_scenario.py`, spec §8)

One post with day and night 12-hour shifts, January 2025, holiday on
January 1, three FIJO employees and one COMODIN, all on salary 1 423 500,
`sunday_threshold = 2`.  The shift rotation anchor `shift_start_time` is
06:00 (spec §3/§4.2; the day shift runs 06:00-18:00). -/

def scenarioGlobal : GlobalConfig :=
  { year := 2025, month := 1
    day_start := 6, night_start := 21
    shift_length_hours := 12, shift_start_time := 6
    hours_base_month := 220, hours_per_week := 44
    min_fixed_per_post := 3, sunday_threshold := 2, max_posts_per_comodin := 4
    min_rest_hours := 12
    rn_pct := 35/100, rf_pct := 80/100, he_pct := 125/100 }

def scenarioEmployee (empId : String) (tipo : String) (post : Option String)
    (maxPosts : Nat) : Employee :=
  { emp_id := empId, tipo := tipo, asignado_post_id := post
    salario_contrato := 1423500
    disponible_desde := daysFromCivil 2025 1 1
    disponible_hasta := daysFromCivil 2025 12 31
    max_posts_if_comodin := maxPosts }

def scenarioConfig : Config :=
  { global_config := scenarioGlobal
    holidays := [{ date := daysFromCivil 2025 1 1, description := "New Year" }]
    posts := [{ post_id := "P001", nombre := "Security Post 1", required_coverage := 1
                allow_day_shift := true, allow_night_shift := true }]
    employees :=
      [scenarioEmployee "E001" "FIJO" (some "P001") 1,
       scenarioEmployee "E002" "FIJO" (some "P001") 1,
       scenarioEmployee "E003" "FIJO" (some "P001") 1,
       scenarioEmployee "E004" "COMODIN" none 4] }

def scenarioShifts : List Shift := generate_shifts scenarioConfig

/-- A concrete feasible schedule for scenario 1: `E001` takes every DAY
shift, `E002` every NIGHT shift, `E003`/`E004` stay inactive; all derived
variables take the values the aggregator constraints force
(`hours_to_work = (44/7)·31 = 194.857…`, so overtime is
`37200 − 19485 = 17715` centihours for both active employees). -/
def scenarioState : SolverState :=
  { x := fun empId shiftId =>
      match scenarioShifts.find? (fun s => s.shift_id == shiftId) with
      | some s => (empId == "E001" && !s.is_night) || (empId == "E002" && s.is_night)
      | none => false
    active := fun empId => empId == "E001" || empId == "E002"
    z := fun _ _ => false
    sunday_worked := fun empId _ => empId == "E001" || empId == "E002"
    excess_sundays := fun empId => empId == "E001" || empId == "E002"
    hours_assigned := fun empId => if empId == "E001" || empId == "E002" then 372 else 0
    hours_night := fun empId => if empId == "E002" then 27900 else 0
    hours_holiday := fun empId =>
      if empId == "E001" then 1200 else if empId == "E002" then 600 else 0
    hours_sunday := fun empId => if empId == "E001" || empId == "E002" then 4800 else 0
    he_hours := fun empId => if empId == "E001" || empId == "E002" then 17715 else 0
    has_he := fun empId => empId == "E001" || empId == "E002" }

/-- The NIGHT shift of January 1st — the witness shift used to show every
feasible scenario-1 schedule assigns some night shift. -/
def scenarioNightShift : Shift :=
  create_shift "P001" 2025 1 1 18 12 false true "NIGHT" scenarioConfig

/-- The DAY shift of January 1st (it abuts `scenarioNightShift`). -/
def scenarioDayShift : Shift :=
  create_shift "P001" 2025 1 1 6 12 false true "DAY" scenarioConfig

/-! ## Small instances for the Sunday-link, COMODIN-cap and availability
claims -/

/-- Jan 4, 2025 (a Saturday) and Jan 5, 2025 (a Sunday). -/
def jan4 : Int := daysFromCivil 2025 1 4

def jan5 : Int := daysFromCivil 2025 1 5

def smallGlobal : GlobalConfig :=
  { scenarioGlobal with min_fixed_per_post := 0 }

def sundayEmployee : Employee := scenarioEmployee "E1" "COMODIN" none 4

/-- Instance for the Sunday-link claim: one post, a single NIGHT shift that
starts on Saturday Jan 4 at 18:00 and runs into Sunday Jan 5, one COMODIN. -/
def sundayCfg : Config :=
  { global_config := smallGlobal
    holidays := []
    posts := [{ post_id := "P001", nombre := "P", required_coverage := 1
                allow_day_shift := true, allow_night_shift := true }]
    employees := [sundayEmployee] }

def satNightShift : Shift := create_shift "P001" 2025 1 4 18 12 false false "NIGHT" sundayCfg

def sundayShifts : List Shift := [satNightShift]

/-- Feasible state for `sundayCfg`: the COMODIN takes the Saturday-night
shift but every `sunday_worked` indicator is 0 — no Sunday-link constraint
mentions the shift because it does not *start* on a Sunday. -/
def sundayState : SolverState :=
  { x := fun empId shiftId => empId == "E1" && shiftId == satNightShift.shift_id
    active := fun empId => empId == "E1"
    z := fun empId postId => empId == "E1" && postId == "P001"
    sunday_worked := fun _ _ => false
    excess_sundays := fun _ => false
    hours_assigned := fun empId => if empId == "E1" then 12 else 0
    hours_night := fun empId => if empId == "E1" then 900 else 0
    hours_holiday := fun _ => 0
    hours_sunday := fun empId => if empId == "E1" then 600 else 0
    he_hours := fun _ => 0
    has_he := fun _ => false }

/-- Witness instance for the amended Sunday-link claim: a single DAY shift
starting on Sunday Jan 5. -/
def sunDayShift : Shift := create_shift "P001" 2025 1 5 6 12 true false "DAY" sundayCfg

def sundayShiftsB : List Shift := [sunDayShift]

def sundayStateB : SolverState :=
  { sundayState with
    x := fun empId shiftId => empId == "E1" && shiftId == sunDayShift.shift_id
    sunday_worked := fun empId d => empId == "E1" && d == jan5
    hours_night := fun _ => 0
    hours_sunday := fun empId => if empId == "E1" then 1200 else 0 }

/-- Instance for the COMODIN-cap claim: five posts, one DAY shift each on
Jan 6-10 (Monday-Friday), one COMODIN with per-employee cap 5 while the
global cap is 4. -/
def comodinPost (pid : String) : Post :=
  { post_id := pid, nombre := pid, required_coverage := 1
    allow_day_shift := true, allow_night_shift := false }

def comodinEmployee : Employee := scenarioEmployee "E1" "COMODIN" none 5

def comodinCfg : Config :=
  { global_config := smallGlobal
    holidays := []
    posts := [comodinPost "P1", comodinPost "P2", comodinPost "P3",
              comodinPost "P4", comodinPost "P5"]
    employees := [comodinEmployee] }

def comodinShifts : List Shift :=
  [create_shift "P1" 2025 1 6 6 12 false false "DAY" comodinCfg,
   create_shift "P2" 2025 1 7 6 12 false false "DAY" comodinCfg,
   create_shift "P3" 2025 1 8 6 12 false false "DAY" comodinCfg,
   create_shift "P4" 2025 1 9 6 12 false false "DAY" comodinCfg,
   create_shift "P5" 2025 1 10 6 12 false false "DAY" comodinCfg]

/-- Feasible state for `comodinCfg`: the COMODIN takes all five shifts, on
five distinct posts; `Σ z = 5 ≤ 5`, the model's own cap. -/
def comodinState : SolverState :=
  { x := fun empId _ => empId == "E1"
    active := fun empId => empId == "E1"
    z := fun empId _ => empId == "E1"
    sunday_worked := fun _ _ => false
    excess_sundays := fun _ => false
    hours_assigned := fun empId => if empId == "E1" then 60 else 0
    hours_night := fun _ => 0
    hours_holiday := fun _ => 0
    hours_sunday := fun _ => 0
    he_hours := fun _ => 0
    has_he := fun _ => false }

/-- Instance for the availability claim: one post with a single DAY shift on
Jan 2, one FIJO employee whose availability window is Jan 1 only, and
`min_fixed_per_post = 1` so the model builds. -/
def availEmployee : Employee :=
  { emp_id := "E1", tipo := "FIJO", asignado_post_id := some "P001"
    salario_contrato := 1423500
    disponible_desde := daysFromCivil 2025 1 1
    disponible_hasta := daysFromCivil 2025 1 1
    max_posts_if_comodin := 1 }

def availCfg : Config :=
  { global_config := { scenarioGlobal with min_fixed_per_post := 1 }
    holidays := []
    posts := [{ post_id := "P001", nombre := "P", required_coverage := 1
                allow_day_shift := true, allow_night_shift := true }]
    employees := [availEmployee] }

def availShift : Shift := create_shift "P001" 2025 1 2 6 12 false false "DAY" availCfg

def availShifts : List Shift := [availShift]

/-- The unique coverage-satisfying state: the only employee takes the only
shift, which is dated outside their availability window. -/
def availState : SolverState :=
  { x := fun empId shiftId => empId == "E1" && shiftId == availShift.shift_id
    active := fun empId => empId == "E1"
    z := fun _ _ => false
    sunday_worked := fun _ _ => false
    excess_sundays := fun _ => false
    hours_assigned := fun empId => if empId == "E1" then 12 else 0
    hours_night := fun _ => 0
    hours_holiday := fun _ => 0
    hours_sunday := fun _ => 0
    he_hours := fun _ => 0
    has_he := fun _ => false }

/-- A second shift of the same post (Jan 9), for the witness that
eligibility depends only on the post. -/
def availShiftB : Shift := create_shift "P001" 2025 1 9 6 12 false false "DAY" availCfg

/-! # Theorems -/

/-! ## Generic helper lemmas -/

theorem ratEqB_iff (a b : ℚ) : ratEqB a b = true ↔ a = b := by
  simp only [ratEqB, Bool.and_eq_true, decide_eq_true_eq]
  constructor
  · rintro ⟨h1, h2⟩; exact le_antisymm h1 h2
  · rintro rfl; exact ⟨le_rfl, le_rfl⟩

theorem sundayWorkedCount_le_length (w : List Bool) : sundayWorkedCount w ≤ w.length := by
  induction w with
  | nil => simp [sundayWorkedCount]
  | cons b t ih =>
    simp only [sundayWorkedCount, List.map_cons, List.sum_cons, List.length_cons]
    simp only [sundayWorkedCount] at ih
    split <;> omega

/-! ## C7 — the excess-Sundays indicator encoding -/

theorem excessSundays_value (w : List Bool) (threshold ex : Nat) (hex : ex ≤ 1) :
    excessSundaysConstraintOK w threshold ex ↔
      ex = if threshold < sundayWorkedCount w then 1 else 0 := by
  have hS := sundayWorkedCount_le_length w
  rcases Nat.le_one_iff_eq_zero_or_eq_one.mp hex with h | h <;> subst h <;>
    simp only [excessSundaysConstraintOK, Nat.mul_zero, Nat.mul_one, Nat.add_zero] <;>
    split <;> omega

/-- C7: for 0/1 values of the `worked_sunday` indicators, the constraint pair
`Σ w ≤ T + K·ex` and `Σ w ≥ (T+1)·ex` (with `K` the number of Sundays) is
satisfied by exactly one boolean value of `excess_sundays`, namely `1` iff
the Sunday count exceeds the threshold. -/
theorem C7_excess_sundays_encoding (w : List Bool) (threshold ex : Nat) (hex : ex ≤ 1) :
    (excessSundaysConstraintOK w threshold ex ↔
      ex = if threshold < sundayWorkedCount w then 1 else 0)
    ∧ (∃! e0 : Nat, e0 ≤ 1 ∧ excessSundaysConstraintOK w threshold e0) := by
  refine ⟨excessSundays_value w threshold ex hex, ?_⟩
  refine ⟨if threshold < sundayWorkedCount w then 1 else 0, ⟨?_, ?_⟩, ?_⟩
  · split <;> omega
  · exact (excessSundays_value w threshold _ (by split <;> omega)).mpr rfl
  · rintro y ⟨hy1, hy2⟩
    exact (excessSundays_value w threshold y hy1).mp hy2

theorem C7_excess_sundays_encoding_witness :
    (1 : Nat) ≤ 1
    ∧ (excessSundaysConstraintOK [true, true, true] 2 1 ↔
        1 = if 2 < sundayWorkedCount [true, true, true] then 1 else 0) :=
  ⟨Nat.le_refl 1, (C7_excess_sundays_encoding [true, true, true] 2 1 (Nat.le_refl 1)).1⟩

/-! ## C4 — the L2b freeze step -/

/-- C4: the lexicographic driver's freeze step after level L2b reads back the
objective it just minimised and completes for the `smart`, `balanced`,
`cost_focused` and default strategies, but for `load_balancing` and
`surcharge_equity` it reads the Python local `total_excess_sundays`, which
those branches never bind, and the step fails with `UnboundLocalError`
instead of freezing the `max_hours` / `max_surcharge` objective that was
actually minimised. -/
theorem C4_l2b_freeze :
    l2bFreezeResult "smart" = .ok (l2bMinimised "smart")
    ∧ l2bFreezeResult "balanced" = .ok (l2bMinimised "balanced")
    ∧ l2bFreezeResult "cost_focused" = .ok (l2bMinimised "cost_focused")
    ∧ l2bFreezeResult "other" = .ok (l2bMinimised "other")
    ∧ l2bMinimised "load_balancing" = .maxHours
    ∧ l2bFreezeResult "load_balancing" = .error "UnboundLocalError: total_excess_sundays"
    ∧ l2bMinimised "surcharge_equity" = .maxSurcharge
    ∧ l2bFreezeResult "surcharge_equity" = .error "UnboundLocalError: total_excess_sundays" :=
  ⟨rfl, rfl, rfl, rfl, rfl, rfl, rfl, rfl⟩

/-! ## C6 — scenario-1 shift generation counts -/

/-- C6: for the scenario-1 configuration, `generate_shifts` emits exactly 62
shifts, of which exactly 2 are holiday-flagged but 12 — not 8 — are
Sunday-flagged: the 8 shifts that start on one of the four Sundays, plus the
4 Saturday NIGHT shifts whose touched dates include the following Sunday. -/
theorem C6_scenario_shift_counts :
    scenarioShifts.length = 62
    ∧ (scenarioShifts.filter (·.is_holiday)).length = 2
    ∧ (scenarioShifts.filter (·.is_sunday)).length = 12
    ∧ (scenarioShifts.filter (fun s => s.is_sunday && isSundayDate s.date)).length = 8 := by
  refine ⟨?_, ?_, ?_, ?_⟩ <;> with_unfolding_all rfl

/-! ## C9 — the minimum-fixed-staffing build check -/

theorem checkMinFixed_ok_iff (posts : List Post) (employees : List Employee) (k : Nat) :
    checkMinFixedPerPost posts employees k = .ok () ↔
      ∀ p ∈ posts, k ≤ (fixedEmployeesForPost employees p.post_id).length := by
  induction posts with
  | nil => simp [checkMinFixedPerPost]
  | cons p rest ih =>
    simp only [checkMinFixedPerPost, List.mem_cons]
    split
    case isTrue hc =>
      constructor
      · intro h; exact Except.noConfusion h
      · intro h
        exact absurd (h p (Or.inl rfl)) (by omega)
    case isFalse hc =>
      rw [ih]
      constructor
      · intro h q hq
        rcases hq with rfl | hq
        · omega
        · exact h q hq
      · intro h q hq
        exact h q (Or.inr hq)

theorem checkMinFixed_error (posts : List Post) (employees : List Employee) (k : Nat)
    (msg : String) (h : checkMinFixedPerPost posts employees k = .error msg) :
    ∃ p ∈ posts, (fixedEmployeesForPost employees p.post_id).length < k
      ∧ msg = minFixedErrorMsg p.post_id (fixedEmployeesForPost employees p.post_id).length k := by
  induction posts with
  | nil => simp [checkMinFixedPerPost] at h
  | cons p rest ih =>
    simp only [checkMinFixedPerPost] at h
    split at h
    case isTrue hc =>
      injection h with h1
      exact ⟨p, List.mem_cons_self p rest, hc, h1.symm⟩
    case isFalse hc =>
      obtain ⟨q, hq, hlt, hmsg⟩ := ih h
      exact ⟨q, List.mem_cons_of_mem p hq, hlt, hmsg⟩

/-- C9: building the optimisation model fails, with an error message naming
an offending post, if and only if some post has strictly fewer than
`min_fixed_per_post` FIJO employees in the input; the check runs during
model construction (`__init__`, before any solve) and on failure no model —
hence no `Solution` — is produced. -/
theorem C9_min_fixed_check (cfg : Config) (shifts : List Shift) :
    (buildSucceeds cfg shifts = true ↔
      ∀ p ∈ cfg.posts,
        cfg.global_config.min_fixed_per_post
          ≤ (fixedEmployeesForPost cfg.employees p.post_id).length)
    ∧ (∀ msg, buildShiftOptimizer cfg shifts = .error msg →
        ∃ p ∈ cfg.posts,
          (fixedEmployeesForPost cfg.employees p.post_id).length
              < cfg.global_config.min_fixed_per_post
          ∧ msg = minFixedErrorMsg p.post_id
              (fixedEmployeesForPost cfg.employees p.post_id).length
              cfg.global_config.min_fixed_per_post) := by
  constructor
  · rw [← checkMinFixed_ok_iff cfg.posts cfg.employees cfg.global_config.min_fixed_per_post]
    simp only [buildSucceeds, buildShiftOptimizer]
    cases h : checkMinFixedPerPost cfg.posts cfg.employees cfg.global_config.min_fixed_per_post with
    | ok u => cases u; simp
    | error e => simp
  · intro msg h
    apply checkMinFixed_error cfg.posts cfg.employees cfg.global_config.min_fixed_per_post msg
    simp only [buildShiftOptimizer] at h
    split at h
    case h_1 e heq =>
      injection h with h1
      rw [← h1]
      exact heq
    case h_2 m heq => exact Except.noConfusion h

theorem C9_min_fixed_check_witness :
    buildSucceeds availCfg availShifts = true :=
  (C9_min_fixed_check availCfg availShifts).1.mpr (by decide)

/-! ## C5 — invariants of the hour decomposer -/

theorem floor24_bounds (t : ℚ) :
    24 * ((⌊t / 24⌋ : Int) : ℚ) ≤ t ∧ t < 24 * (((⌊t / 24⌋ : Int) : ℚ) + 1) := by
  have h1 : ((⌊t / 24⌋ : Int) : ℚ) ≤ t / 24 := Int.floor_le (t / 24)
  have h2 : t / 24 < ((⌊t / 24⌋ : Int) : ℚ) + 1 := Int.lt_floor_add_one (t / 24)
  have h3 : t = 24 * (t / 24) := by field_simp
  constructor <;> nlinarith

set_option maxHeartbeats 1600000 in
/-- Within one calendar date, the three day/night windows partition the date,
so the split hours sum to the period length. -/
theorem splitDayNight_sum (a b : ℚ) (d : Int) (ds ns : ℚ)
    (hA : 24 * (d : ℚ) ≤ a) (hab : a ≤ b) (hB : b ≤ 24 * ((d : ℚ) + 1))
    (h0 : 0 ≤ ds) (hdn : ds ≤ ns) (h24 : ns ≤ 24) :
    (splitDayNightHours a b d ds ns).1 + (splitDayNightHours a b d ds ns).2 = b - a := by
  simp only [splitDayNightHours, max_def, min_def]
  split_ifs <;> linarith

theorem calcLoop_of_not_lt (shift_end ds ns : ℚ) (hol : List Int) (fuel : Nat) (cur : ℚ)
    (h : ¬ cur < shift_end) : calcHoursLoop shift_end ds ns hol fuel cur = [] := by
  cases fuel with
  | zero => rfl
  | succ f => simp only [calcHoursLoop, if_neg h]

theorem calcLoop_chunk_pos (shift_end : ℚ) (cur : ℚ) (h : cur < shift_end) :
    cur < min shift_end (24 * (((⌊cur / 24⌋ : Int) : ℚ) + 1)) :=
  lt_min h (floor24_bounds cur).2

/-- Every entry emitted by the decomposition loop satisfies
`day_hours + night_hours = total_hours` and `total_hours > 0`. -/
theorem calcLoop_entries (shift_end ds ns : ℚ) (hol : List Int)
    (h0 : 0 ≤ ds) (hdn : ds ≤ ns) (h24 : ns ≤ 24) :
    ∀ (fuel : Nat) (cur : ℚ), ∀ e ∈ calcHoursLoop shift_end ds ns hol fuel cur,
      e.2.day_hours + e.2.night_hours = e.2.total_hours ∧ 0 < e.2.total_hours := by
  intro fuel
  induction fuel with
  | zero => intro cur e he; exact absurd he (List.not_mem_nil e)
  | succ f ih =>
    intro cur e he
    by_cases hlt : cur < shift_end
    · simp only [calcHoursLoop, if_pos hlt] at he
      have hchunk := calcLoop_chunk_pos shift_end cur hlt
      rcases List.mem_append.mp he with hhead | htail
      · have hpos : (0 : ℚ) < min shift_end (24 * (((⌊cur / 24⌋ : Int) : ℚ) + 1)) - cur := by
          linarith
        rw [if_pos (by simpa only [dateOfInstant] using hpos)] at hhead
        simp only [List.mem_singleton] at hhead
        subst hhead
        simp only [dateOfInstant]
        constructor
        · refine splitDayNight_sum cur _ ⌊cur / 24⌋ ds ns (floor24_bounds cur).1 (le_of_lt ?_)
            (min_le_right _ _) h0 hdn h24
          exact hchunk
        · exact hpos
      · exact ih _ e htail
    · rw [calcLoop_of_not_lt shift_end ds ns hol _ cur hlt] at he
      exact absurd he (List.not_mem_nil e)

/-- With enough fuel (one unit per remaining calendar day), the emitted
totals sum to the remaining interval length. -/
theorem calcLoop_sum (shift_end ds ns : ℚ) (hol : List Int) :
    ∀ (fuel : Nat) (cur : ℚ), (⌊shift_end / 24⌋ - ⌊cur / 24⌋).toNat < fuel →
      ((calcHoursLoop shift_end ds ns hol fuel cur).map (fun e => e.2.total_hours)).sum
        = max 0 (shift_end - cur) := by
  intro fuel
  induction fuel with
  | zero => intro cur h; omega
  | succ f ih =>
    intro cur hfuel
    by_cases hlt : cur < shift_end
    · have hchunk := calcLoop_chunk_pos shift_end cur hlt
      have hpos : (0 : ℚ) < min shift_end (24 * (((⌊cur / 24⌋ : Int) : ℚ) + 1)) - cur := by
        linarith
      simp only [calcHoursLoop, if_pos hlt, dateOfInstant, if_pos hpos, List.map_append,
        List.sum_append, List.map_cons, List.map_nil, List.sum_cons, List.sum_nil]
      rcases le_or_lt shift_end (24 * (((⌊cur / 24⌋ : Int) : ℚ) + 1)) with hend | hend
      · rw [min_eq_left hend]
        rw [calcLoop_of_not_lt shift_end ds ns hol f shift_end (lt_irrefl shift_end)]
        simp only [List.map_nil, List.sum_nil]
        rw [max_eq_right (by linarith)]
        ring
      · rw [min_eq_right (le_of_lt hend)]
        have hfloor : ⌊(24 * (((⌊cur / 24⌋ : Int) : ℚ) + 1)) / 24⌋ = ⌊cur / 24⌋ + 1 := by
          rw [show (24 * (((⌊cur / 24⌋ : Int) : ℚ) + 1)) / 24 = ((⌊cur / 24⌋ + 1 : Int) : ℚ) by
            push_cast; field_simp]
          exact Int.floor_intCast _
        have hmono : ⌊cur / 24⌋ + 1 ≤ ⌊shift_end / 24⌋ := by
          rw [← hfloor]
          exact Int.floor_le_floor (by
            apply div_le_div_of_nonneg_right (le_of_lt hend) (by norm_num))
        rw [ih _ (by rw [hfloor]; omega)]
        rw [max_eq_right (by linarith), max_eq_right (by linarith)]
        ring
    · rw [calcLoop_of_not_lt shift_end ds ns hol _ cur hlt]
      simp only [List.map_nil, List.sum_nil]
      rw [max_eq_left (by linarith [not_lt.mp hlt])]

/-- C5: for every half-open interval `[start, end)` with `start < end` and a
night window satisfying `0 ≤ day_start ≤ night_start ≤ 24`, every `DayHours`
record emitted by `calculate_hours_by_day` satisfies
`day_hours + night_hours = total_hours` and `total_hours > 0`, and the
emitted totals sum to the interval length `end − start` (the shift length). -/
theorem C5_decomposer_invariants (shift_start shift_end ds ns : ℚ) (hol : List Int)
    (hlt : shift_start < shift_end) (h0 : 0 ≤ ds) (hdn : ds ≤ ns) (h24 : ns ≤ 24) :
    (∀ e ∈ calculate_hours_by_day shift_start shift_end ds ns hol,
      e.2.day_hours + e.2.night_hours = e.2.total_hours ∧ 0 < e.2.total_hours)
    ∧ ((calculate_hours_by_day shift_start shift_end ds ns hol).map
        (fun e => e.2.total_hours)).sum = shift_end - shift_start := by
  constructor
  · exact calcLoop_entries shift_end ds ns hol h0 hdn h24 _ shift_start
  · rw [calculate_hours_by_day, calcLoop_sum shift_end ds ns hol _ shift_start (by omega)]
    exact max_eq_right (by linarith)

theorem C5_decomposer_invariants_witness :
    (18 : ℚ) < 30 ∧ (0 : ℚ) ≤ 6 ∧ (6 : ℚ) ≤ 21 ∧ (21 : ℚ) ≤ 24
    ∧ ((∀ e ∈ calculate_hours_by_day 18 30 6 21 [],
        e.2.day_hours + e.2.night_hours = e.2.total_hours ∧ 0 < e.2.total_hours)
      ∧ ((calculate_hours_by_day 18 30 6 21 []).map (fun e => e.2.total_hours)).sum
          = 30 - 18) :=
  ⟨by norm_num, by norm_num, by norm_num, by norm_num,
   C5_decomposer_invariants 18 30 6 21 [] (by norm_num) (by norm_num) (by norm_num)
     (by norm_num)⟩

/-! ## C8 — the conflict predicate and pair enumeration -/

theorem shifts_conflict_iff (s1 s2 : Shift) (r : ℚ)
    (h1 : 0 < s1.duration_hours) (h2 : 0 < s2.duration_hours) :
    shifts_conflict s1 s2 r = true ↔
      (max (shiftStartDT s1) (shiftStartDT s2) < min (shiftEndDT s1) (shiftEndDT s2)
        ∨ shiftEndDT s1 = shiftStartDT s2 ∨ shiftEndDT s2 = shiftStartDT s1) := by
  have hd1 : shiftStartDT s1 < shiftEndDT s1 := by
    have h : (0 : ℚ) < s1.duration_hours := by exact_mod_cast h1
    simp only [shiftEndDT]; linarith
  have hd2 : shiftStartDT s2 < shiftEndDT s2 := by
    have h : (0 : ℚ) < s2.duration_hours := by exact_mod_cast h2
    simp only [shiftEndDT]; linarith
  show (if !(decide (shiftEndDT s1 ≤ shiftStartDT s2)
              || decide (shiftEndDT s2 ≤ shiftStartDT s1)) then true
        else if ratEqB (shiftEndDT s1) (shiftStartDT s2)
              || ratEqB (shiftEndDT s2) (shiftStartDT s1) then true
        else false) = true ↔ _
  split_ifs with hov hab
  · refine iff_of_true rfl (Or.inl ?_)
    simp only [Bool.not_eq_eq_eq_not, Bool.not_true, Bool.or_eq_false_iff,
      decide_eq_false_iff_not, not_le] at hov
    rw [max_lt_iff, lt_min_iff, lt_min_iff]
    exact ⟨⟨hd1, hov.2⟩, ⟨hov.1, hd2⟩⟩
  · refine iff_of_true rfl (Or.inr ?_)
    rcases Bool.or_eq_true_iff.mp hab with h | h
    · exact Or.inl ((ratEqB_iff _ _).mp h)
    · exact Or.inr ((ratEqB_iff _ _).mp h)
  · refine iff_of_false (by simp) ?_
    simp only [Bool.not_eq_eq_eq_not, Bool.not_true, Bool.or_eq_false_iff,
      decide_eq_false_iff_not, not_le, not_and, not_lt] at hov
    simp only [Bool.or_eq_true_iff, not_or, ratEqB_iff] at hab
    push_neg at hab
    rintro (hovl | habut | habut)
    · rw [max_lt_iff, lt_min_iff, lt_min_iff] at hovl
      rcases lt_or_le (shiftStartDT s2) (shiftEndDT s1) with hc | hc
      · have := hov hc
        linarith [hovl.1.2]
      · rcases lt_or_le (shiftStartDT s1) (shiftEndDT s2) with hc2 | hc2
        · linarith [hovl.2.1]
        · linarith [hovl.1.2]
    · exact hab.1 habut
    · exact hab.2 habut

theorem filterMap_if_eq_map_filter {α β : Type} (p : α → Bool) (f : α → β) (l : List α) :
    l.filterMap (fun x => if p x then some (f x) else none) = (l.filter p).map f := by
  induction l with
  | nil => rfl
  | cons a t ih =>
    simp only [List.filterMap_cons, List.filter_cons]
    by_cases h : p a = true
    · rw [if_pos h, if_pos h, List.map_cons, ih]
    · rw [if_neg h, if_neg h, ih]

theorem conflicts_eq_filtered_pairs (shifts : List Shift) (r : ℚ) :
    get_shifts_with_conflicts shifts r =
      ((allOrderedPairs shifts).filter (fun p => shifts_conflict p.1 p.2 r)).map
        (fun p => (p.1.shift_id, p.2.shift_id)) := by
  induction shifts with
  | nil => rfl
  | cons s rest ih =>
    simp only [get_shifts_with_conflicts, allOrderedPairs, List.filter_append,
      List.map_append, ih]
    congr 1
    rw [filterMap_if_eq_map_filter (fun t => shifts_conflict s t r)
      (fun t => (s.shift_id, t.shift_id)) rest]
    rw [List.filter_map, List.map_map]
    rfl

theorem allOrderedPairs_mem {α : Type} (l : List α) (p : α × α) :
    p ∈ allOrderedPairs l ↔
      ∃ i j : Nat, ∃ hi : i < l.length, ∃ hj : j < l.length,
        i < j ∧ p.1 = l.get ⟨i, hi⟩ ∧ p.2 = l.get ⟨j, hj⟩ := by
  induction l with
  | nil =>
    simp only [allOrderedPairs, List.not_mem_nil, false_iff]
    rintro ⟨i, j, hi, _⟩
    exact absurd hi (by simp)
  | cons a rest ih =>
    simp only [allOrderedPairs, List.mem_append, List.mem_map, ih]
    constructor
    · rintro (⟨b, hb, rfl⟩ | ⟨i, j, hi, hj, hij, h1, h2⟩)
      · obtain ⟨⟨n, hn⟩, hget⟩ := List.mem_iff_get.mp hb
        exact ⟨0, n + 1, by simp, by simpa using Nat.succ_lt_succ hn, Nat.succ_pos n,
          rfl, hget.symm⟩
      · exact ⟨i + 1, j + 1, by simpa using Nat.succ_lt_succ hi,
          by simpa using Nat.succ_lt_succ hj, by omega, h1, h2⟩
    · rintro ⟨i, j, hi, hj, hij, h1, h2⟩
      cases i with
      | zero =>
        cases j with
        | zero => omega
        | succ j' =>
          left
          refine ⟨rest.get ⟨j', by simpa using hj⟩, List.get_mem rest _ _, ?_⟩
          have : p.1 = a := h1
          rw [Prod.ext_iff]
          exact ⟨this.symm ▸ rfl, h2.symm⟩
      | succ i' =>
        cases j with
        | zero => omega
        | succ j' =>
          right
          exact ⟨i', j', by simpa using hi, by simpa using hj, by omega, h1, h2⟩

/-- C8: `shifts_conflict` returns true exactly when the two half-open shift
intervals overlap (`max start < min end`) or abut (one's end equals the
other's start); and `get_shifts_with_conflicts` returns exactly the identifier
pairs of the conflicting unordered pairs `(shifts[i], shifts[j])`, `i < j`,
each once, in the order induced by the input list. -/
theorem C8_conflict_contract :
    (∀ (s1 s2 : Shift) (r : ℚ), 0 < s1.duration_hours → 0 < s2.duration_hours →
      (shifts_conflict s1 s2 r = true ↔
        (max (shiftStartDT s1) (shiftStartDT s2) < min (shiftEndDT s1) (shiftEndDT s2)
          ∨ shiftEndDT s1 = shiftStartDT s2 ∨ shiftEndDT s2 = shiftStartDT s1)))
    ∧ (∀ (shifts : List Shift) (r : ℚ),
        get_shifts_with_conflicts shifts r =
          ((allOrderedPairs shifts).filter (fun p => shifts_conflict p.1 p.2 r)).map
            (fun p => (p.1.shift_id, p.2.shift_id)))
    ∧ (∀ (shifts : List Shift) (p : Shift × Shift),
        p ∈ allOrderedPairs shifts ↔
          ∃ i j : Nat, ∃ hi : i < shifts.length, ∃ hj : j < shifts.length,
            i < j ∧ p.1 = shifts.get ⟨i, hi⟩ ∧ p.2 = shifts.get ⟨j, hj⟩) :=
  ⟨fun s1 s2 r h1 h2 => shifts_conflict_iff s1 s2 r h1 h2,
   fun shifts r => conflicts_eq_filtered_pairs shifts r,
   fun shifts p => allOrderedPairs_mem shifts p⟩

/-! ## C1 — helper lemmas: list arithmetic and the extractor/verifier link -/

theorem exists_of_sum_boole_pos {α : Type} (p : α → Bool) (l : List α)
    (h : 0 < (l.map (fun a => if p a then 1 else 0)).sum) : ∃ a ∈ l, p a = true := by
  induction l with
  | nil => simp at h
  | cons a t ih =>
    by_cases ha : p a = true
    · exact ⟨a, List.mem_cons_self a t, ha⟩
    · rw [List.map_cons, List.sum_cons, if_neg ha, Nat.zero_add] at h
      obtain ⟨b, hb, hpb⟩ := ih h
      exact ⟨b, List.mem_cons_of_mem a hb, hpb⟩

theorem sum_map_ite_eq_sum_filter {α : Type} (p : α → Bool) (f : α → Nat) (l : List α) :
    (l.map (fun a => if p a then f a else 0)).sum = (((l.filter p).map f)).sum := by
  induction l with
  | nil => rfl
  | cons a t ih =>
    simp only [List.map_cons, List.sum_cons, List.filter_cons]
    by_cases h : p a = true <;> simp [h, ih]

theorem filter_and_eq {α : Type} (p q : α → Bool) (l : List α) :
    l.filter (fun a => p a && q a) = (l.filter p).filter q := by
  induction l with
  | nil => rfl
  | cons a t ih =>
    simp only [List.filter_cons]
    by_cases hp : p a = true
    · by_cases hq : q a = true <;> simp [hp, hq, ih, List.filter_cons]
    · simp [hp, Bool.and_eq_false_iff, ih]

theorem sum_duration_const (l : List Shift) (h : ∀ s ∈ l, s.duration_hours = 12) :
    (l.map (fun s => s.duration_hours)).sum = 12 * l.length := by
  induction l with
  | nil => rfl
  | cons a t ih =>
    simp only [List.map_cons, List.sum_cons, List.length_cons]
    rw [h a (List.mem_cons_self a t), ih (fun s hs => h s (List.mem_cons_of_mem a hs))]
    ring

theorem sum_nightCenti_eq (l : List Shift)
    (h : ∀ s ∈ l, (s.is_night = true → shiftNightCenti s = 900)
      ∧ (s.is_night = false → shiftNightCenti s = 0)) :
    (l.map shiftNightCenti).sum = 900 * (l.filter (fun s => s.is_night)).length := by
  induction l with
  | nil => rfl
  | cons a t ih =>
    simp only [List.map_cons, List.sum_cons, List.filter_cons]
    have ha := h a (List.mem_cons_self a t)
    have iht := ih (fun s hs => h s (List.mem_cons_of_mem a hs))
    by_cases hn : a.is_night = true
    · rw [ha.1 hn, if_pos hn, List.length_cons, iht]; ring
    · rw [ha.2 (by revert hn; cases a.is_night <;> simp), if_neg hn, iht, Nat.zero_add]

theorem find_of_nodup_keys {α β : Type} [BEq β] [LawfulBEq β] (key : α → β)
    (l : List α) (hnodup : (l.map key).Nodup) (a : α) (ha : a ∈ l) :
    l.find? (fun t => key t == key a) = some a := by
  induction l with
  | nil => exact absurd ha (List.not_mem_nil a)
  | cons b rest ih =>
    rw [List.map_cons, List.nodup_cons] at hnodup
    simp only [List.find?]
    by_cases hb : (key b == key a) = true
    · rw [hb]
      rcases List.mem_cons.mp ha with rfl | ha2
      · rfl
      · exact absurd ((eq_of_beq hb).symm ▸ List.mem_map_of_mem key ha2) hnodup.1
    · rw [Bool.not_eq_true] at hb
      rw [hb]
      rcases List.mem_cons.mp ha with rfl | ha2
      · rw [beq_self_eq_true] at hb
        exact Bool.noConfusion hb
      · exact ih hnodup.2 ha2

theorem filterMap_find_self (shifts sub : List Shift)
    (h : ∀ s ∈ sub, shifts.find? (fun t => t.shift_id == s.shift_id) = some s) :
    sub.filterMap (fun s => shifts.find? (fun t => t.shift_id == s.shift_id)) = sub := by
  induction sub with
  | nil => rfl
  | cons a t ih =>
    simp only [List.filterMap_cons, h a (List.mem_cons_self a t)]
    exact congrArg (a :: ·) (ih (fun s hs => h s (List.mem_cons_of_mem a hs)))

theorem mem_assignment_entries (shifts : List Shift) (S : SolverState) (b : Employee)
    (pr : String × String)
    (h : pr ∈ shifts.filterMap (fun s =>
        if validAssignment b s && S.x b.emp_id s.shift_id then some (s.shift_id, b.emp_id)
        else none)) : pr.2 = b.emp_id := by
  rw [List.mem_filterMap] at h
  obtain ⟨s, hs, hsome⟩ := h
  split at hsome
  · cases hsome; rfl
  · exact Option.noConfusion hsome

theorem filter_flatMap_assignments (employees : List Employee) (shifts : List Shift)
    (S : SolverState) (e : Employee) (he : e ∈ employees)
    (hnodup : (employees.map Employee.emp_id).Nodup) :
    (employees.flatMap (fun e2 => shifts.filterMap (fun s =>
        if validAssignment e2 s && S.x e2.emp_id s.shift_id then some (s.shift_id, e2.emp_id)
        else none))).filter (fun p => p.2 == e.emp_id)
      = shifts.filterMap (fun s =>
          if validAssignment e s && S.x e.emp_id s.shift_id then some (s.shift_id, e.emp_id)
          else none) := by
  induction employees with
  | nil => exact absurd he (List.not_mem_nil e)
  | cons a t ih =>
    rw [List.map_cons, List.nodup_cons] at hnodup
    rw [List.flatMap_cons, List.filter_append]
    rcases List.mem_cons.mp he with rfl | he2
    · have hkeep : (shifts.filterMap (fun s =>
          if validAssignment e s && S.x e.emp_id s.shift_id then some (s.shift_id, e.emp_id)
          else none)).filter (fun p => p.2 == e.emp_id)
          = shifts.filterMap (fun s =>
              if validAssignment e s && S.x e.emp_id s.shift_id then some (s.shift_id, e.emp_id)
              else none) := by
        rw [List.filter_eq_self]
        intro pr hpr
        rw [mem_assignment_entries shifts S e pr hpr]
        simp
      have hdrop : (t.flatMap (fun e2 => shifts.filterMap (fun s =>
          if validAssignment e2 s && S.x e2.emp_id s.shift_id then some (s.shift_id, e2.emp_id)
          else none))).filter (fun p => p.2 == e.emp_id) = [] := by
        rw [List.filter_eq_nil]
        intro pr hpr
        rw [List.mem_flatMap] at hpr
        obtain ⟨b, hb, hprb⟩ := hpr
        rw [mem_assignment_entries shifts S b pr hprb]
        intro hbeq
        exact hnodup.1 (eq_of_beq hbeq ▸ List.mem_map_of_mem Employee.emp_id hb)
      rw [hkeep, hdrop, List.append_nil]
    · have hdrop : (shifts.filterMap (fun s =>
          if validAssignment a s && S.x a.emp_id s.shift_id then some (s.shift_id, a.emp_id)
          else none)).filter (fun p => p.2 == e.emp_id) = [] := by
        rw [List.filter_eq_nil]
        intro pr hpr
        rw [mem_assignment_entries shifts S a pr hpr]
        intro hbeq
        exact hnodup.1 (eq_of_beq hbeq ▸ List.mem_map_of_mem Employee.emp_id he2)
      rw [hdrop, List.nil_append]
      exact ih he2 hnodup.2

/-- The verifier attributes to an employee exactly the shifts whose `x`
variable is set for them — provided employee and shift identifiers are
pairwise distinct, as in the scenario instance. -/
theorem assignedShiftsOf_extract (cfg : Config) (shifts : List Shift) (S : SolverState)
    (e : Employee) (he : e ∈ cfg.employees)
    (hemp : (cfg.employees.map Employee.emp_id).Nodup)
    (hids : (shifts.map Shift.shift_id).Nodup) :
    assignedShiftsOf (extractSolution cfg shifts S) shifts e.emp_id
      = shifts.filter (fun s => validAssignment e s && S.x e.emp_id s.shift_id) := by
  unfold assignedShiftsOf extractSolution
  rw [filter_flatMap_assignments cfg.employees shifts S e he hemp]
  rw [filterMap_if_eq_map_filter (fun s => validAssignment e s && S.x e.emp_id s.shift_id)
    (fun s => (s.shift_id, e.emp_id)) shifts]
  rw [List.filterMap_map]
  show (shifts.filter (fun s => validAssignment e s && S.x e.emp_id s.shift_id)).filterMap
      (fun s => shifts.find? (fun t => t.shift_id == s.shift_id)) = _
  apply filterMap_find_self
  intro s hs
  exact find_of_nodup_keys Shift.shift_id shifts hids s (List.mem_filter.mp hs).1

/-! ## C1 — scenario facts (one evaluation each) -/

theorem scenarioFeasible : constraintsOK scenarioConfig scenarioShifts scenarioState = true := by
  with_unfolding_all rfl

theorem scenarioAccuracyFalse :
    calculationAccuracyOK (extractSolution scenarioConfig scenarioShifts scenarioState)
      scenarioShifts = false := by
  with_unfolding_all rfl

theorem scenarioShiftFacts :
    scenarioShifts.all (fun s =>
      (s.duration_hours == 12) && (s.post_id == "P001")
      && (if s.is_night then shiftNightCenti s == 900 else shiftNightCenti s == 0)) = true := by
  with_unfolding_all rfl

theorem scenarioHasNightShift : scenarioShifts.any (fun s => s.is_night) = true := by
  with_unfolding_all rfl

theorem scenarioShiftIdsNodup : (scenarioShifts.map Shift.shift_id).Nodup := by
  with_unfolding_all decide

theorem scenarioEmpIdsNodup : (scenarioConfig.employees.map Employee.emp_id).Nodup := by
  decide

theorem scenarioPostFind :
    scenarioConfig.posts.find? (fun p => p.post_id == "P001")
      = some { post_id := "P001", nombre := "Security Post 1", required_coverage := 1
               allow_day_shift := true, allow_night_shift := true } := rfl

theorem scenarioShiftFact (s : Shift) (hs : s ∈ scenarioShifts) :
    s.duration_hours = 12 ∧ s.post_id = "P001"
    ∧ (s.is_night = true → shiftNightCenti s = 900)
    ∧ (s.is_night = false → shiftNightCenti s = 0) := by
  have h := List.all_eq_true.mp scenarioShiftFacts s hs
  rw [Bool.and_eq_true, Bool.and_eq_true] at h
  refine ⟨beq_iff_eq.mp h.1.1, beq_iff_eq.mp h.1.2, ?_, ?_⟩
  · intro hn
    rw [if_pos hn] at h
    exact beq_iff_eq.mp h.2
  · intro hn
    rw [if_neg (by rw [hn]; exact Bool.false_ne_true)] at h
    exact beq_iff_eq.mp h.2

theorem validAssignment_comodin (e : Employee) (s : Shift) (h : e.tipo = "COMODIN") :
    validAssignment e s = true := by
  simp [validAssignment, h]

theorem validAssignment_fijo (e : Employee) (s : Shift)
    (h1 : e.tipo = "FIJO") (h2 : e.asignado_post_id = some s.post_id) :
    validAssignment e s = true := by
  simp [validAssignment, h1, h2]

/-- In the scenario every employee is eligible for every generated shift
(the three FIJOs are pinned to the only post). -/
theorem scenario_valid_all (e : Employee) (he : e ∈ scenarioConfig.employees)
    (s : Shift) (hs : s ∈ scenarioShifts) : validAssignment e s = true := by
  have hpost := (scenarioShiftFact s hs).2.1
  fin_cases he
  · exact validAssignment_fijo _ s rfl (by rw [hpost]; rfl)
  · exact validAssignment_fijo _ s rfl (by rw [hpost]; rfl)
  · exact validAssignment_fijo _ s rfl (by rw [hpost]; rfl)
  · exact validAssignment_comodin _ s rfl

/-- C1 amended: for scenario 1, every variable assignment satisfying the
CP-SAT model is rejected by the verifier's calculation-accuracy check.  The
verifier's recomputed `hours_assigned` does agree exactly with the reported
metric for every active employee, but its night-hour recomputation counts
the full 12-hour duration of each night-flagged shift while the metrics
report the decomposed night hours (9 h per 18:00 night shift under the
21:00-06:00 night window): a 3 h gap per assigned night shift, and coverage
forces some employee to hold a night shift. -/
theorem C1_roundtrip_amended (S : SolverState)
    (hok : constraintsOK scenarioConfig scenarioShifts S = true) :
    (∀ e ∈ scenarioConfig.employees, S.active e.emp_id = true →
      verifierCalcAssigned (extractSolution scenarioConfig scenarioShifts S) scenarioShifts
          e.emp_id
        = (calcEmployeeMetrics scenarioConfig scenarioShifts S e).hours_assigned)
    ∧ calculationAccuracyOK (extractSolution scenarioConfig scenarioShifts S) scenarioShifts
        = false := by
  simp only [constraintsOK, Bool.and_eq_true] at hok
  obtain ⟨⟨⟨⟨⟨⟨⟨hcov, hact⟩, hconf⟩, hcomod⟩, hsun⟩, hex⟩, hhrs⟩, hdom⟩ := hok
  simp only [hoursOK, List.all_eq_true] at hhrs
  -- the verifier's per-employee assigned-shift list, and the assigned-hours
  -- agreement
  have key_assigned : ∀ e ∈ scenarioConfig.employees,
      verifierCalcAssigned (extractSolution scenarioConfig scenarioShifts S) scenarioShifts
          e.emp_id
        = S.hours_assigned e.emp_id := by
    intro e hemem
    have he1 := hhrs e hemem
    rw [Bool.and_eq_true, Bool.and_eq_true, Bool.and_eq_true, Bool.and_eq_true,
      Bool.and_eq_true, Bool.and_eq_true] at he1
    rw [verifierCalcAssigned, assignedShiftsOf_extract scenarioConfig scenarioShifts S e
      hemem scenarioEmpIdsNodup scenarioShiftIdsNodup]
    rw [beq_iff_eq.mp he1.1.1.1.1.1.1]
    rw [sum_map_ite_eq_sum_filter (fun s => S.x e.emp_id s.shift_id)
      (fun s => s.duration_hours) (scenarioShifts.filter (fun s => validAssignment e s))]
    rw [filter_and_eq (fun s => validAssignment e s) (fun s => S.x e.emp_id s.shift_id)
      scenarioShifts]
  refine ⟨?_, ?_⟩
  · intro e hemem hactive
    rw [key_assigned e hemem]
    simp [calcEmployeeMetrics, hactive]
  -- pick a night shift; coverage forces someone to take it
  obtain ⟨s0, hs0, hnight⟩ := List.any_eq_true.mp scenarioHasNightShift
  simp only [coverageOK, List.all_eq_true] at hcov
  have hc0 := hcov s0 hs0
  have hfact := scenarioShiftFact s0 hs0
  have hfilter_self : scenarioConfig.employees.filter (fun e => validAssignment e s0)
      = scenarioConfig.employees :=
    List.filter_eq_self.mpr (fun e he => scenario_valid_all e he s0 hs0)
  rw [hfilter_self, hfact.2.1, scenarioPostFind] at hc0
  have hc1 : ((scenarioConfig.employees.map
      (fun e => if S.x e.emp_id s0.shift_id then 1 else 0)).sum == 1) = true := hc0
  obtain ⟨e, hemem, hxe⟩ := exists_of_sum_boole_pos
    (fun e => S.x e.emp_id s0.shift_id) scenarioConfig.employees
    (by rw [beq_iff_eq.mp hc1]; exact Nat.one_pos)
  -- activation forces the employee active
  simp only [activationOK, List.all_eq_true] at hact
  have ha1 := hact e hemem s0 hs0
  rw [Bool.or_eq_true] at ha1
  have hvalid := scenario_valid_all e hemem s0 hs0
  have hactive : S.active e.emp_id = true := by
    rcases ha1 with hneg | hA
    · rw [hvalid, hxe] at hneg
      exact absurd hneg (by decide)
    · exact hA
  have hmem_active : e.emp_id ∈ (extractSolution scenarioConfig scenarioShifts S).active_employees :=
    List.mem_map.mpr ⟨e, List.mem_filter.mpr ⟨hemem, hactive⟩, rfl⟩
  have hcontains : (extractSolution scenarioConfig scenarioShifts S).active_employees.contains
      e.emp_id = true :=
    List.elem_eq_true_of_mem hmem_active
  -- the assigned-shift list of the chosen employee and its night-shift count
  have hs0l : s0 ∈ scenarioShifts.filter
      (fun s => validAssignment e s && S.x e.emp_id s.shift_id) :=
    List.mem_filter.mpr ⟨hs0, by rw [hvalid, hxe]; rfl⟩
  have hk : 0 < ((scenarioShifts.filter
      (fun s => validAssignment e s && S.x e.emp_id s.shift_id)).filter
        (fun s => s.is_night)).length :=
    List.length_pos.mpr (List.ne_nil_of_mem (List.mem_filter.mpr ⟨hs0l, hnight⟩))
  -- the reported (decomposed) night centihours
  have he1 := hhrs e hemem
  rw [Bool.and_eq_true, Bool.and_eq_true, Bool.and_eq_true, Bool.and_eq_true,
    Bool.and_eq_true, Bool.and_eq_true] at he1
  have hnightsum : S.hours_night e.emp_id
      = 900 * ((scenarioShifts.filter
          (fun s => validAssignment e s && S.x e.emp_id s.shift_id)).filter
            (fun s => s.is_night)).length := by
    rw [beq_iff_eq.mp he1.1.1.1.1.1.2]
    rw [sum_map_ite_eq_sum_filter (fun s => S.x e.emp_id s.shift_id) shiftNightCenti
      (scenarioShifts.filter (fun s => validAssignment e s))]
    rw [← filter_and_eq (fun s => validAssignment e s) (fun s => S.x e.emp_id s.shift_id)
      scenarioShifts]
    apply sum_nightCenti_eq
    intro s hs
    have hsmem : s ∈ scenarioShifts := (List.mem_filter.mp hs).1
    exact ⟨(scenarioShiftFact s hsmem).2.2.1, (scenarioShiftFact s hsmem).2.2.2⟩
  -- the verifier's (full-duration) night hours
  have hvercalc : verifierCalcNight (extractSolution scenarioConfig scenarioShifts S)
      scenarioShifts e.emp_id
      = 12 * ((scenarioShifts.filter
          (fun s => validAssignment e s && S.x e.emp_id s.shift_id)).filter
            (fun s => s.is_night)).length := by
    rw [verifierCalcNight, assignedShiftsOf_extract scenarioConfig scenarioShifts S e
      hemem scenarioEmpIdsNodup scenarioShiftIdsNodup]
    apply sum_duration_const
    intro s hs
    have hsmem : s ∈ scenarioShifts :=
      (List.mem_filter.mp (List.mem_filter.mp hs).1).1
    exact (scenarioShiftFact s hsmem).1
  -- the reported metric
  have hmetr : (calcEmployeeMetrics scenarioConfig scenarioShifts S e).hours_night
      = ((900 * ((scenarioShifts.filter
          (fun s => validAssignment e s && S.x e.emp_id s.shift_id)).filter
            (fun s => s.is_night)).length : Nat) : ℚ) / 100 := by
    simp only [calcEmployeeMetrics, hactive, if_true]
    rw [hnightsum]
  -- conclude: the night-hour comparison fails
  rw [Bool.eq_false_iff]
  intro hacc
  simp only [calculationAccuracyOK, List.all_eq_true] at hacc
  have hentry := hacc (e.emp_id, calcEmployeeMetrics scenarioConfig scenarioShifts S e)
    (List.mem_map.mpr ⟨e, hemem, rfl⟩)
  simp only [hcontains, if_true] at hentry
  rw [Bool.and_eq_true, Bool.and_eq_true] at hentry
  have hB := of_decide_eq_true hentry.1.2
  rw [hvercalc, hmetr] at hB
  rw [abs_le] at hB
  have hB2 := hB.2
  have hk1 : (1 : ℚ) ≤ (((scenarioShifts.filter
      (fun s => validAssignment e s && S.x e.emp_id s.shift_id)).filter
        (fun s => s.is_night)).length : ℚ) := by
    exact_mod_cast hk
  push_cast at hB2
  linarith

theorem C1_roundtrip_amended_witness :
    constraintsOK scenarioConfig scenarioShifts scenarioState = true
    ∧ calculationAccuracyOK (extractSolution scenarioConfig scenarioShifts scenarioState)
        scenarioShifts = false :=
  ⟨scenarioFeasible, (C1_roundtrip_amended scenarioState scenarioFeasible).2⟩

/-- C1 counterexample: the concrete schedule `scenarioState` satisfies every
model constraint of scenario 1, yet the verifier's accuracy check rejects
the extracted solution — so the claim that every non-failed solution passes
the verifier within tolerances is false at this input. -/
theorem C1_roundtrip_counterexample :
    ¬ (constraintsOK scenarioConfig scenarioShifts scenarioState = true →
        calculationAccuracyOK (extractSolution scenarioConfig scenarioShifts scenarioState)
          scenarioShifts = true) := by
  intro h
  exact Bool.noConfusion (scenarioAccuracyFalse.symm.trans (h scenarioFeasible))

/-! ## C10 — eligibility ignores dates and availability -/

/-- C10: `_is_valid_assignment` depends only on the employee's kind and the
shift's post (never on the shift's date or the availability window), and in
the concrete `availCfg` instance the model's full constraint set is satisfied
by a schedule that places the only employee on a shift dated after their
availability window — which only the verifier's after-the-fact employee
check flags. -/
theorem C10_eligibility_ignores_availability :
    (∀ (e : Employee) (s1 s2 : Shift), s1.post_id = s2.post_id →
      validAssignment e s1 = validAssignment e s2)
    ∧ (∀ (e : Employee) (s : Shift) (a b : Int),
        validAssignment { e with disponible_desde := a, disponible_hasta := b } s
          = validAssignment e s)
    ∧ constraintsOK availCfg availShifts availState = true
    ∧ availState.x "E1" availShift.shift_id = true
    ∧ availEmployee.disponible_hasta < availShift.date
    ∧ employeeConstraintsOK (extractSolution availCfg availShifts availState) availShifts
        availCfg.employees = false := by
  refine ⟨?_, ?_, ?_, ?_, ?_, ?_⟩
  · intro e s1 s2 h
    simp only [validAssignment, h]
  · intro e s a b; rfl
  · with_unfolding_all rfl
  · with_unfolding_all rfl
  · with_unfolding_all decide
  · with_unfolding_all rfl

theorem C10_eligibility_ignores_availability_witness :
    availShift.post_id = availShiftB.post_id
    ∧ validAssignment availEmployee availShift = validAssignment availEmployee availShiftB :=
  ⟨rfl, C10_eligibility_ignores_availability.1 availEmployee availShift availShiftB rfl⟩

/-! ## C2 — the Sunday-worked indicator -/

/-- C2 counterexample: in `sundayCfg` the state `sundayState` satisfies every
model constraint, assigns the employee the Saturday 18:00 NIGHT shift whose
touched dates contain Sunday Jan 5, and still has
`sunday_worked[E1, Jan 5] = 0` — the constraints only mention shifts whose
*start* date is the Sunday, and never force the indicator downwards. -/
theorem C2_sunday_link_counterexample :
    ¬ (constraintsOK sundayCfg sundayShifts sundayState = true →
        (sundayState.sunday_worked "E1" jan5 = true ↔
          ∃ s ∈ sundayShifts, sundayState.x "E1" s.shift_id = true
            ∧ jan5 ∈ s.hours_by_day.map (fun p => p.1))) := by
  intro h
  have hc : constraintsOK sundayCfg sundayShifts sundayState = true := by
    with_unfolding_all rfl
  have hw := (h hc).mpr ⟨satNightShift, List.mem_singleton.mpr rfl,
    by with_unfolding_all rfl,
    of_decide_eq_true (by with_unfolding_all rfl)⟩
  exact absurd hw (by with_unfolding_all decide)

/-- C2 amended: the Sunday-link constraints force `worked_sunday[e, d] = 1`
whenever `e` is assigned a shift whose *start* date is the Sunday `d`; they
say nothing about overnight shifts that merely touch `d`, and they never
force the indicator to 0. -/
theorem C2_sunday_link_amended (cfg : Config) (shifts : List Shift) (S : SolverState)
    (e : Employee) (s : Shift) (d : Int)
    (hok : sundayLinkOK cfg shifts S = true)
    (he : e ∈ cfg.employees) (hd : d ∈ getSundays cfg) (hs : s ∈ shifts)
    (hdate : s.date = d) (hvalid : validAssignment e s = true)
    (hx : S.x e.emp_id s.shift_id = true) :
    S.sunday_worked e.emp_id d = true := by
  simp only [sundayLinkOK, List.all_eq_true] at hok
  have h1 := hok e he d hd
  have hmem : s ∈ (shifts.filter (fun t => t.date == d)).filter
      (fun t => validAssignment e t) :=
    List.mem_filter.mpr ⟨List.mem_filter.mpr ⟨hs, beq_iff_eq.mpr hdate⟩, hvalid⟩
  rw [Bool.or_eq_true] at h1
  rcases h1 with hemp | hconj
  · rw [List.isEmpty_iff] at hemp
    rw [hemp] at hmem
    exact absurd hmem (List.not_mem_nil s)
  · rw [Bool.and_eq_true] at hconj
    have hall := hconj.1
    rw [List.all_eq_true] at hall
    have h2 := hall s hmem
    rw [Bool.or_eq_true] at h2
    rcases h2 with hnx | hw
    · rw [Bool.not_eq_true'] at hnx
      rw [hx] at hnx
      exact Bool.noConfusion hnx
    · exact hw

theorem C2_sunday_link_amended_witness :
    sundayLinkOK sundayCfg sundayShiftsB sundayStateB = true
    ∧ sundayStateB.sunday_worked "E1" jan5 = true :=
  ⟨by with_unfolding_all rfl,
   C2_sunday_link_amended sundayCfg sundayShiftsB sundayStateB sundayEmployee sunDayShift jan5
     (by with_unfolding_all rfl)
     (List.mem_singleton.mpr rfl)
     (of_decide_eq_true (by with_unfolding_all rfl))
     (List.mem_singleton.mpr rfl)
     (by with_unfolding_all rfl)
     (by with_unfolding_all rfl)
     (by with_unfolding_all rfl)⟩

/-! ## C3 — the FLOATER post cap -/

theorem sum_boole_eq_length_filter {α : Type} (p : α → Bool) (l : List α) :
    (l.map (fun a => if p a then 1 else 0)).sum = (l.filter p).length := by
  induction l with
  | nil => rfl
  | cons a t ih =>
    simp only [List.map_cons, List.sum_cons, List.filter_cons]
    by_cases h : p a = true <;> simp [h, ih, Nat.add_comm]

/-- C3 counterexample: in `comodinCfg` (global cap 4, per-employee cap 5) the
state `comodinState` satisfies every model constraint while the COMODIN
takes shifts on five distinct posts, violating the claimed bound
`min(global, per-employee) = 4`. -/
theorem C3_comodin_cap_counterexample :
    ¬ (constraintsOK comodinCfg comodinShifts comodinState = true →
        (postsUsedBy comodinShifts comodinState comodinEmployee).length
          ≤ min comodinCfg.global_config.max_posts_per_comodin
              comodinEmployee.max_posts_if_comodin) := by
  intro h
  have hc : constraintsOK comodinCfg comodinShifts comodinState = true := by
    with_unfolding_all rfl
  have h2 := h hc
  have h3 : (postsUsedBy comodinShifts comodinState comodinEmployee).length = 5 := by
    with_unfolding_all rfl
  rw [h3] at h2
  exact absurd h2 (by decide)

theorem comodin_model_cap (cfg : Config) (shifts : List Shift) (S : SolverState)
    (e : Employee)
    (hok : comodinOK cfg shifts S = true)
    (he : e ∈ cfg.employees) (hcom : e.tipo = "COMODIN")
    (hposts : ∀ s ∈ shifts, ∃ p ∈ cfg.posts, s.post_id = p.post_id) :
    (postsUsedBy shifts S e).length ≤ comodinMaxPosts cfg e := by
  simp only [comodinOK, List.all_eq_true] at hok
  have h1 := hok e he
  rw [if_pos (show (e.tipo == "COMODIN") = true from beq_iff_eq.mpr hcom)] at h1
  rw [Bool.and_eq_true] at h1
  have hcap := of_decide_eq_true h1.1
  have hlinks := h1.2
  rw [List.all_eq_true] at hlinks
  have hA : ∀ pid ∈ postsUsedBy shifts S e,
      ∃ p ∈ cfg.posts, p.post_id = pid ∧ S.z e.emp_id p.post_id = true := by
    intro pid hpid
    rw [postsUsedBy, List.mem_dedup, List.mem_map] at hpid
    obtain ⟨s, hsmem, rfl⟩ := hpid
    rw [List.mem_filter] at hsmem
    obtain ⟨hs, hcond⟩ := hsmem
    rw [Bool.and_eq_true] at hcond
    obtain ⟨p, hp, hpid_eq⟩ := hposts s hs
    have hlink := hlinks p hp
    have hsmem2 : s ∈ (shifts.filter (fun t => t.post_id == p.post_id)).filter
        (fun t => validAssignment e t) :=
      List.mem_filter.mpr ⟨List.mem_filter.mpr ⟨hs, beq_iff_eq.mpr hpid_eq⟩, hcond.1⟩
    rw [Bool.or_eq_true] at hlink
    rcases hlink with hemp | hconj
    · rw [List.isEmpty_iff] at hemp
      rw [hemp] at hsmem2
      exact absurd hsmem2 (List.not_mem_nil s)
    · rw [Bool.and_eq_true] at hconj
      have hall := hconj.1
      rw [List.all_eq_true] at hall
      have h2 := hall s hsmem2
      rw [Bool.or_eq_true] at h2
      rcases h2 with hnx | hz
      · rw [Bool.not_eq_true'] at hnx
        rw [hcond.2] at hnx
        exact Bool.noConfusion hnx
      · exact ⟨p, hp, hpid_eq.symm, hz⟩
  have hsubset : postsUsedBy shifts S e ⊆
      (cfg.posts.filter (fun p => S.z e.emp_id p.post_id)).map Post.post_id := by
    intro pid hpid
    obtain ⟨p, hp, hpe, hz⟩ := hA pid hpid
    exact List.mem_map.mpr ⟨p, List.mem_filter.mpr ⟨hp, hz⟩, hpe⟩
  have hnodup : (postsUsedBy shifts S e).Nodup := List.nodup_dedup _
  have hlen := (List.subperm_of_subset hnodup hsubset).length_le
  calc (postsUsedBy shifts S e).length
      ≤ ((cfg.posts.filter (fun p => S.z e.emp_id p.post_id)).map Post.post_id).length :=
        hlen
    _ = (cfg.posts.filter (fun p => S.z e.emp_id p.post_id)).length := by simp
    _ = (cfg.posts.map (fun p => if S.z e.emp_id p.post_id then 1 else 0)).sum :=
        (sum_boole_eq_length_filter _ _).symm
    _ ≤ comodinMaxPosts cfg e := hcap

theorem verifier_comodin_min_bound (cfg : Config) (shifts : List Shift) (sol : SolutionRec)
    (e : Employee)
    (hok : verifierComodinOK cfg shifts sol = true)
    (hactive : e.emp_id ∈ sol.active_employees)
    (hfind : cfg.employees.find? (fun e2 => e2.emp_id == e.emp_id) = some e)
    (hcom : e.tipo = "COMODIN") :
    ((sol.assignments.filter (fun p => p.2 == e.emp_id)).filterMap
      (fun p => (shifts.find? (fun s => s.shift_id == p.1)).map (·.post_id))).dedup.length
      ≤ min e.max_posts_if_comodin cfg.global_config.max_posts_per_comodin := by
  simp only [verifierComodinOK, List.all_eq_true] at hok
  have h1 := hok e.emp_id hactive
  rw [hfind] at h1
  have h2 : (if (e.tipo == "COMODIN") = true then
      decide (((sol.assignments.filter (fun p => p.2 == e.emp_id)).filterMap
        (fun p => (shifts.find? (fun s => s.shift_id == p.1)).map (·.post_id))).dedup.length
        ≤ min e.max_posts_if_comodin cfg.global_config.max_posts_per_comodin)
      else true) = true := h1
  rw [if_pos (show (e.tipo == "COMODIN") = true from beq_iff_eq.mpr hcom)] at h2
  exact of_decide_eq_true h2

/-- C3 amended: the model's COMODIN constraints bound the number of distinct
posts an employee takes shifts on by `comodinMaxPosts` — the per-employee
`max_posts_if_comodin` when positive, else the global cap — not by the
minimum of the two; the verifier, by contrast, does check the
`min(per-employee, global)` bound on any solution it accepts. -/
theorem C3_comodin_cap_amended :
    (∀ (cfg : Config) (shifts : List Shift) (S : SolverState) (e : Employee),
      comodinOK cfg shifts S = true → e ∈ cfg.employees → e.tipo = "COMODIN" →
      (∀ s ∈ shifts, ∃ p ∈ cfg.posts, s.post_id = p.post_id) →
      (postsUsedBy shifts S e).length ≤ comodinMaxPosts cfg e)
    ∧ (∀ (cfg : Config) (shifts : List Shift) (sol : SolutionRec) (e : Employee),
      verifierComodinOK cfg shifts sol = true →
      e.emp_id ∈ sol.active_employees →
      cfg.employees.find? (fun e2 => e2.emp_id == e.emp_id) = some e →
      e.tipo = "COMODIN" →
      ((sol.assignments.filter (fun p => p.2 == e.emp_id)).filterMap
        (fun p => (shifts.find? (fun s => s.shift_id == p.1)).map (·.post_id))).dedup.length
        ≤ min e.max_posts_if_comodin cfg.global_config.max_posts_per_comodin) :=
  ⟨fun cfg shifts S e hok he hcom hposts =>
    comodin_model_cap cfg shifts S e hok he hcom hposts,
   fun cfg shifts sol e hok hactive hfind hcom =>
    verifier_comodin_min_bound cfg shifts sol e hok hactive hfind hcom⟩

theorem C3_comodin_cap_amended_witness :
    comodinOK comodinCfg comodinShifts comodinState = true
    ∧ (postsUsedBy comodinShifts comodinState comodinEmployee).length
        ≤ comodinMaxPosts comodinCfg comodinEmployee :=
  ⟨by with_unfolding_all rfl,
   C3_comodin_cap_amended.1 comodinCfg comodinShifts comodinState comodinEmployee
     (by with_unfolding_all rfl)
     (List.mem_singleton.mpr rfl)
     rfl
     (of_decide_eq_true (by with_unfolding_all rfl))⟩

theorem C8_conflict_contract_witness :
    0 < scenarioDayShift.duration_hours ∧ 0 < scenarioNightShift.duration_hours
    ∧ shifts_conflict scenarioDayShift scenarioNightShift 0 = true :=
  ⟨by decide, by decide,
   (C8_conflict_contract.1 scenarioDayShift scenarioNightShift 0 (by decide)
      (by decide)).mpr
    (Or.inr (Or.inl (by with_unfolding_all rfl)))⟩

end ShiftPlanner
